import Mathlib

/-!
Verification of the `yulid` ULID library.

A shallow embedding of the identifier model (`src/lib.rs`) and the Crockford
base32 codec (`src/parser.rs`).  Rust strings are modelled as lists of their
byte values (`&str::as_bytes`), `u8`/`u16`/`u32` values as `Nat` with
explicit `% 2 ^ w` truncation where Rust would wrap, and `i64` timestamps as
`Int`.  Fallible functions return `Except`/`Option`.
-/

set_option maxRecDepth 100000

namespace Yulid

/-- The casing of the output alphabet (`parser.rs`, `enum Case`). -/
inductive Case
  | Upper
  | Lower
deriving DecidableEq

/-- Errors from parsing a ULID string (`parser.rs`, `enum ParseError`).
The `found` character is kept as its code-point value: the source stores
`c as char` for a byte `c`, which is the code point equal to that byte. -/
inductive ParseError
  | InvalidCharacter (found : Nat) (index : Nat)
  | InvalidLength (found : Nat)
deriving DecidableEq

/-- Error for byte-slice construction (`lib.rs`, `struct BytesError`). -/
structure BytesError where
  expected : Nat
  found : Nat
deriving DecidableEq

/-- The constant `CROCKFORD: &[u8] = b"0123456789ABCDEFGHJKMNPQRSTVWXYZ"` as byte values. -/
def CROCKFORD : List Nat :=
  [48, 49, 50, 51, 52, 53, 54, 55, 56, 57,
   65, 66, 67, 68, 69, 70, 71, 72, 74, 75, 77, 78, 80, 81, 82, 83, 84, 86, 87, 88, 89, 90]

/-- The constant `CROCKFORD_LOWER: &[u8] = b"0123456789abcdefghjkmnpqrstvwxyz"` as byte values. -/
def CROCKFORD_LOWER : List Nat :=
  [48, 49, 50, 51, 52, 53, 54, 55, 56, 57,
   97, 98, 99, 100, 101, 102, 103, 104, 106, 107, 109, 110, 112, 113, 114, 115, 116, 118, 119, 120, 121, 122]

/-- The inverse table `CROCKFORD_INV: [i8; 43]` from `parser.rs`. -/
def CROCKFORD_INV : List Int :=
  [0, 1, 2, 3, 4, 5, 6, 7, 8, 9, -1, -1, -1, -1, -1, -1, -1, 10, 11, 12, 13,
   14, 15, 16, 17, 1, 18, 19, 1, 20, 21, 0, 22, 23, 24, 25, 26, -1, 27, 28, 29, 30, 31]

/-- Rust `u8::to_ascii_uppercase`: ASCII lowercase letters are mapped to uppercase. -/
def toAsciiUpper (c : Nat) : Nat :=
  if 97 ≤ c ∧ c ≤ 122 then c - 32 else c

/-- Rust `u8::to_ascii_lowercase`: ASCII uppercase letters are mapped to lowercase. -/
def toAsciiLower (c : Nat) : Nat :=
  if 65 ≤ c ∧ c ≤ 90 then c + 32 else c

/-- Rust `slice::chunks(5)`: consecutive 5-byte groups, the last group possibly shorter. -/
def chunks5 : List Nat → List (List Nat)
  | [] => []
  | a :: b :: c :: d :: e :: rest => [a, b, c, d, e] :: chunks5 rest
  | l => [l]

/-- Rust `slice::chunks(8)`: consecutive 8-byte groups, the last group possibly shorter. -/
def chunks8 : List Nat → List (List Nat)
  | [] => []
  | a :: b :: c :: d :: e :: f :: g :: h :: rest => [a, b, c, d, e, f, g, h] :: chunks8 rest
  | l => [l]

/-- The eight 5-bit alphabet indices produced from one (zero-padded) 5-byte
group in `encode` (`parser.rs` lines 30-45). -/
def encIdx (chunk : List Nat) : List Nat :=
  let b0 := chunk.getD 0 0
  let b1 := chunk.getD 1 0
  let b2 := chunk.getD 2 0
  let b3 := chunk.getD 3 0
  let b4 := chunk.getD 4 0
  [(b0 &&& 0xF8) >>> 3,
   ((b0 &&& 0x07) <<< 2) ||| ((b1 &&& 0xC0) >>> 6),
   (b1 &&& 0x3E) >>> 1,
   ((b1 &&& 0x01) <<< 4) ||| ((b2 &&& 0xF0) >>> 4),
   ((b2 &&& 0x0F) <<< 1) ||| (b3 >>> 7),
   (b3 &&& 0x7C) >>> 2,
   ((b3 &&& 0x03) <<< 3) ||| ((b4 &&& 0xE0) >>> 5),
   b4 &&& 0x1F]

/-- One 5-byte group of `encode`: each 5-bit index selects an alphabet symbol. -/
def encChunk5 (alphabet : List Nat) (chunk : List Nat) : List Nat :=
  (encIdx chunk).map (fun i => alphabet.getD i 0)

/-- The function `encode` of `parser.rs`: the output string as a list of byte values. -/
def encode (casing : Case) (data : List Nat) : List Nat :=
  let alphabet := match casing with
    | Case.Upper => CROCKFORD
    | Case.Lower => CROCKFORD_LOWER
  let ret := ((chunks5 data).map (encChunk5 alphabet)).flatten
  if data.length % 5 ≠ 0 then
    ret.take (ret.length - (8 - (data.length % 5 * 8 + 4) / 5))
  else ret

/-- Inverse-alphabet lookup for one character (`parser.rs` lines 72-84).
`none` covers both the non-ASCII early return and the `-1` sentinel (and the
out-of-table `None` case); all three produce the same `InvalidCharacter`
error in the source.  The index is `to_ascii_uppercase` of the byte followed
by `wrapping_sub(b'0')` on `u8`. -/
def lookupChar (c : Nat) : Option Nat :=
  if 128 ≤ c then none
  else
    match CROCKFORD_INV.get? ((toAsciiUpper c + 256 - 48) % 256) with
    | none => none
    | some v => if v = -1 then none else some v.toNat

instance {ε α : Type} [DecidableEq ε] [DecidableEq α] : DecidableEq (Except ε α)
  | .error e, .error f =>
    if h : e = f then .isTrue (by rw [h]) else .isFalse (fun hc => by cases hc; exact h rfl)
  | .error _, .ok _ => .isFalse (fun hc => by cases hc)
  | .ok _, .error _ => .isFalse (fun hc => by cases hc)
  | .ok a, .ok b =>
    if h : a = b then .isTrue (by rw [h]) else .isFalse (fun hc => by cases hc; exact h rfl)

/-- The per-character loop over one chunk in `decode` (`parser.rs` lines
71-85); `i` is the enumeration index within the current chunk, reported in
`InvalidCharacter` errors. -/
def decodeVals : List Nat → Nat → Except ParseError (List Nat)
  | [], _ => .ok []
  | c :: rest, i =>
    match lookupChar c with
    | none => .error (.InvalidCharacter c i)
    | some v => (decodeVals rest (i + 1)).map (fun vs => v :: vs)

/-- The five output bytes computed from one chunk's decoded values
(`parser.rs` lines 88-92).  The values list is the zero-initialised
`[0u8; 8]` buffer filled with the chunk's decoded values; shifts are `u8`
shifts, hence the `% 256` truncations. -/
def bytes5 (vals : List Nat) : List Nat :=
  let v0 := vals.getD 0 0
  let v1 := vals.getD 1 0
  let v2 := vals.getD 2 0
  let v3 := vals.getD 3 0
  let v4 := vals.getD 4 0
  let v5 := vals.getD 5 0
  let v6 := vals.getD 6 0
  let v7 := vals.getD 7 0
  [((v0 <<< 3) % 256) ||| (v1 >>> 2),
   ((v1 <<< 6) % 256) ||| ((v2 <<< 1) % 256) ||| (v3 >>> 4),
   ((v3 <<< 4) % 256) ||| (v4 >>> 1),
   ((v4 <<< 7) % 256) ||| ((v5 <<< 2) % 256) ||| (v6 >>> 3),
   ((v6 <<< 5) % 256) ||| v7]

/-- Decoding of a single 8-character chunk: run the character loop, then
reassemble five bytes from the zero-padded value buffer. -/
def decodeChunk (chunk : List Nat) : Except ParseError (List Nat) :=
  (decodeVals chunk 0).map (fun vs => bytes5 (vs ++ List.replicate (8 - vs.length) 0))

/-- The chunk loop of `decode`: chunks are processed in order with an early
return on the first error, and the per-chunk output bytes are appended. -/
def decodeChunks : List (List Nat) → Except ParseError (List Nat)
  | [] => .ok []
  | c :: rest =>
    match decodeChunk c with
    | .error e => .error e
    | .ok bs => (decodeChunks rest).map (fun more => bs ++ more)

/-- The count of trailing `'='` pad bytes recognised by `decode`
(`parser.rs` lines 60-65): a trailing run of `'='`, capped at 6. -/
def padCount (data : List Nat) : Nat :=
  min 6 (data.reverse.takeWhile (fun c => c == 61)).length

/-- The function `decode` of `parser.rs`: strings are byte lists; the result is truncated to
`unpadded_data_length * 5 / 8` bytes. -/
def decode (data : List Nat) : Except ParseError (List Nat) :=
  let outputLength := (data.length - padCount data) * 5 / 8
  match decodeChunks (chunks8 data) with
  | .error e => .error e
  | .ok ret => .ok (ret.take outputLength)

/-- The type `pub struct Ulid(Bytes)`: the 16-byte buffer as a list of byte values. -/
structure Ulid where
  bytes : List Nat
deriving DecidableEq

/-- Constructor `Ulid::from_bytes`. -/
def from_bytes (bytes : List Nat) : Ulid := ⟨bytes⟩

/-- Constructor `Ulid::from_slice` (`lib.rs` lines 142-151). -/
def from_slice (slice : List Nat) : Except BytesError Ulid :=
  if slice.length ≠ 16 then .error ⟨16, slice.length⟩
  else .ok (from_bytes slice)

/-- Modelled from the spec: `byteorder::BigEndian::write_i48` is an external
crate primitive (not in `src/`).  Per spec §4.1 it writes the low 48 bits of
the signed value big-endian into the first six bytes of the buffer,
truncating out-of-range values rather than rejecting them. -/
def write_i48 (buf : List Nat) (n : Int) : List Nat :=
  let m := (n % ((2 ^ 48 : Nat) : Int)).toNat
  [m / 2 ^ 40 % 256, m / 2 ^ 32 % 256, m / 2 ^ 24 % 256,
   m / 2 ^ 16 % 256, m / 2 ^ 8 % 256, m % 256] ++ buf.drop 6

/-- Modelled from the spec: `byteorder::BigEndian::read_i48` is an external
crate primitive (not in `src/`).  Per spec §3/§4.1 it reads the first six
bytes as a 48-bit big-endian integer, sign-extended into 64 bits. -/
def read_i48 (buf : List Nat) : Int :=
  let u : Nat := buf.getD 0 0 * 2 ^ 40 + buf.getD 1 0 * 2 ^ 32 + buf.getD 2 0 * 2 ^ 24 +
    buf.getD 3 0 * 2 ^ 16 + buf.getD 4 0 * 2 ^ 8 + buf.getD 5 0
  if u < 2 ^ 47 then (u : Int) else (u : Int) - ((2 ^ 48 : Nat) : Int)

/-- Constructor `Ulid::from_millis_bytes` (`lib.rs` lines 204-211): a zeroed 16-byte
buffer receives the 48-bit timestamp, then `buf[6..]` is swapped with the
10 random bytes. -/
def from_millis_bytes (millis : Int) (bytes : List Nat) : Ulid :=
  let buf := write_i48 (List.replicate 16 0) millis
  from_bytes (buf.take 6 ++ bytes)

/-- Accessor `Ulid::as_millis` (`lib.rs` lines 333-335). -/
def as_millis (u : Ulid) : Int := read_i48 u.bytes

/-- Constructor `Ulid::from_fields` (`lib.rs` lines 237-256); the `as u8` casts are
mod-256 truncations. -/
def from_fields (f1 f2 f3 f4 f5 : Nat) : Ulid :=
  from_bytes
    [(f1 >>> 24) % 256, (f1 >>> 16) % 256, (f1 >>> 8) % 256, f1 % 256,
     (f2 >>> 8) % 256, f2 % 256,
     (f3 >>> 8) % 256, f3 % 256,
     (f4 >>> 24) % 256, (f4 >>> 16) % 256, (f4 >>> 8) % 256, f4 % 256,
     (f5 >>> 24) % 256, (f5 >>> 16) % 256, (f5 >>> 8) % 256, f5 % 256]

/-- Accessor `Ulid::as_fields` (`lib.rs` lines 286-309): big-endian reassembly of the
five fields (the `u32`/`u16` arithmetic cannot overflow for byte values). -/
def as_fields (u : Ulid) : Nat × Nat × Nat × Nat × Nat :=
  let b := u.bytes
  ((b.getD 0 0 <<< 24) ||| (b.getD 1 0 <<< 16) ||| (b.getD 2 0 <<< 8) ||| b.getD 3 0,
   (b.getD 4 0 <<< 8) ||| b.getD 5 0,
   (b.getD 6 0 <<< 8) ||| b.getD 7 0,
   (b.getD 8 0 <<< 24) ||| (b.getD 9 0 <<< 16) ||| (b.getD 10 0 <<< 8) ||| b.getD 11 0,
   (b.getD 12 0 <<< 24) ||| (b.getD 13 0 <<< 16) ||| (b.getD 14 0 <<< 8) ||| b.getD 15 0)

/-- Parser `Ulid::parse_str` (`lib.rs` lines 341-350).  The internal
`Ulid::from_slice(&bytes).unwrap()` panic is modelled by `none`. -/
def parse_str (input : List Nat) : Option (Except ParseError Ulid) :=
  if input.length ≠ 26 then some (.error (.InvalidLength input.length))
  else
    match decode input with
    | .error e => some (.error e)
    | .ok bytes =>
      match from_slice bytes with
      | .ok u => some (.ok u)
      | .error _ => none

/-- Elementwise lexicographic comparison of the byte buffers, following the
derived `Ord` on `Ulid` (both buffers always have length 16 in the source). -/
def bytesCmp : List Nat → List Nat → Ordering
  | [], [] => .eq
  | [], _ :: _ => .lt
  | _ :: _, [] => .gt
  | a :: ta, b :: tb => if a < b then .lt else if b < a then .gt else bytesCmp ta tb

/-- The derived `Ord::cmp` on `Ulid`. -/
def ulidCmp (a b : Ulid) : Ordering := bytesCmp a.bytes b.bytes

/-- Byte values of an ASCII string literal. -/
def strBytes (s : String) : List Nat := s.toList.map Char.toNat

/-- The fixed test vector from the source's doc tests. -/
def vecBytes : List Nat := [1, 103, 245, 214, 154, 12, 107, 200, 228, 194, 102, 58, 236, 82, 247, 87]

/-! Section: Arithmetic helpers for the bit-level codec proofs -/

/-- Bitwise or of two values occupying disjoint bit ranges is addition. -/
theorem lor_of_disjoint (a b n : Nat) (ha : a % 2 ^ n = 0) (hb : b < 2 ^ n) :
    a ||| b = a + b := by
  obtain ⟨c, rfl⟩ := Nat.dvd_of_mod_eq_zero ha
  apply Nat.eq_of_testBit_eq
  intro i
  rw [Nat.testBit_lor]
  rcases Nat.lt_or_ge i n with h | h
  · have e1 : 2 ^ n * c = 2 ^ i * (2 ^ (n - i) * c) := by
      rw [show (2 : Nat) ^ n = 2 ^ i * 2 ^ (n - i) by rw [← Nat.pow_add]; congr 1; omega]
      ring
    have hpos : 0 < 2 ^ i := Nat.pos_pow_of_pos i (by norm_num)
    have e2 : (2 : Nat) ^ (n - i) * c = 2 * (2 ^ (n - i - 1) * c) := by
      rw [show (2 : Nat) ^ (n - i) = 2 * 2 ^ (n - i - 1) by rw [← Nat.pow_succ']; congr 1; omega]
      ring
    have hA : (2 ^ n * c).testBit i = false := by
      rw [Nat.testBit_to_div_mod, e1, Nat.mul_div_cancel_left _ hpos, e2]
      simp [Nat.mul_mod_right]
    have hAB : (2 ^ n * c + b).testBit i = b.testBit i := by
      rw [Nat.testBit_to_div_mod, Nat.testBit_to_div_mod, e1, Nat.mul_add_div hpos, e2]
      have harith : (2 * (2 ^ (n - i - 1) * c) + b / 2 ^ i) % 2 = b / 2 ^ i % 2 := by
        generalize 2 ^ (n - i - 1) * c = k
        generalize b / 2 ^ i = j
        omega
      rw [harith]
    rw [hA, hAB, Bool.false_or]
  · have hB : b.testBit i = false :=
      Nat.testBit_lt_two_pow (lt_of_lt_of_le hb (Nat.pow_le_pow_right (by norm_num) h))
    have hpos : 0 < 2 ^ n := Nat.pos_pow_of_pos n (by norm_num)
    have e1 : (2 : Nat) ^ i = 2 ^ n * 2 ^ (i - n) := by
      rw [← Nat.pow_add]
      congr 1
      omega
    have hAB : (2 ^ n * c + b).testBit i = (2 ^ n * c).testBit i := by
      rw [Nat.testBit_to_div_mod, Nat.testBit_to_div_mod]
      congr 2
      rw [e1, ← Nat.div_div_eq_div_mul, ← Nat.div_div_eq_div_mul,
        Nat.mul_add_div hpos, Nat.div_eq_of_lt hb, Nat.add_zero,
        Nat.mul_div_cancel_left _ hpos]
    rw [hB, hAB, Bool.or_false]

/-- Contiguous-mask identities on byte values, by exhaustive check. -/
theorem mask07 : ∀ x, x < 256 → x &&& 0x07 = x % 8 := by decide

theorem maskC0 : ∀ x, x < 256 → x &&& 0xC0 = x / 64 * 64 := by decide

theorem mask01 : ∀ x, x < 256 → x &&& 0x01 = x % 2 := by decide

theorem maskF0 : ∀ x, x < 256 → x &&& 0xF0 = x / 16 * 16 := by decide

theorem mask0F : ∀ x, x < 256 → x &&& 0x0F = x % 16 := by decide

theorem mask03 : ∀ x, x < 256 → x &&& 0x03 = x % 4 := by decide

theorem maskE0 : ∀ x, x < 256 → x &&& 0xE0 = x / 32 * 32 := by decide

/-- Arithmetic forms of the eight 5-bit symbol indices of `encIdx`. -/
theorem sB0 : ∀ x, x < 256 → (x &&& 0xF8) >>> 3 = x / 8 := by decide

theorem sB2 : ∀ x, x < 256 → (x &&& 0x3E) >>> 1 = x % 64 / 2 := by decide

theorem sB5 : ∀ x, x < 256 → (x &&& 0x7C) >>> 2 = x % 128 / 4 := by decide

theorem sB7 : ∀ x, x < 256 → x &&& 0x1F = x % 32 := by decide

theorem sB1 (x y : Nat) (hx : x < 256) (hy : y < 256) :
    ((x &&& 0x07) <<< 2) ||| ((y &&& 0xC0) >>> 6) = x % 8 * 4 + y / 64 := by
  rw [mask07 x hx, maskC0 y hy, Nat.shiftLeft_eq, Nat.shiftRight_eq_div_pow,
    lor_of_disjoint (x % 8 * 2 ^ 2) (y / 64 * 64 / 2 ^ 6) 2 (by omega) (by omega)]
  omega

theorem sB3 (x y : Nat) (hx : x < 256) (hy : y < 256) :
    ((x &&& 0x01) <<< 4) ||| ((y &&& 0xF0) >>> 4) = x % 2 * 16 + y / 16 := by
  rw [mask01 x hx, maskF0 y hy, Nat.shiftLeft_eq, Nat.shiftRight_eq_div_pow,
    lor_of_disjoint (x % 2 * 2 ^ 4) (y / 16 * 16 / 2 ^ 4) 4 (by omega) (by omega)]
  omega

theorem sB4 (x y : Nat) (hx : x < 256) (hy : y < 256) :
    ((x &&& 0x0F) <<< 1) ||| (y >>> 7) = x % 16 * 2 + y / 128 := by
  rw [mask0F x hx, Nat.shiftLeft_eq, Nat.shiftRight_eq_div_pow,
    lor_of_disjoint (x % 16 * 2 ^ 1) (y / 2 ^ 7) 1 (by omega) (by omega)]

theorem sB6 (x y : Nat) (hx : x < 256) (hy : y < 256) :
    ((x &&& 0x03) <<< 3) ||| ((y &&& 0xE0) >>> 5) = x % 4 * 8 + y / 32 := by
  rw [mask03 x hx, maskE0 y hy, Nat.shiftLeft_eq, Nat.shiftRight_eq_div_pow,
    lor_of_disjoint (x % 4 * 2 ^ 3) (y / 32 * 32 / 2 ^ 5) 3 (by omega) (by omega)]
  omega

/-- Bounds showing every symbol index of `encIdx` is below 32. -/
theorem bndS0 (x : Nat) : (x &&& 0xF8) >>> 3 < 32 := by
  have h : x &&& 0xF8 ≤ 0xF8 := Nat.and_le_right
  rw [Nat.shiftRight_eq_div_pow]
  omega

theorem bndS1 (x y : Nat) : (((x &&& 0x07) <<< 2) ||| ((y &&& 0xC0) >>> 6)) < 32 := by
  have h1 : x &&& 0x07 ≤ 0x07 := Nat.and_le_right
  have h2 : y &&& 0xC0 ≤ 0xC0 := Nat.and_le_right
  rw [Nat.shiftLeft_eq, Nat.shiftRight_eq_div_pow,
    lor_of_disjoint ((x &&& 0x07) * 2 ^ 2) ((y &&& 0xC0) / 2 ^ 6) 2 (by omega) (by omega)]
  omega

theorem bndS2 (x : Nat) : (x &&& 0x3E) >>> 1 < 32 := by
  have h : x &&& 0x3E ≤ 0x3E := Nat.and_le_right
  rw [Nat.shiftRight_eq_div_pow]
  omega

theorem bndS3 (x y : Nat) : (((x &&& 0x01) <<< 4) ||| ((y &&& 0xF0) >>> 4)) < 32 := by
  have h1 : x &&& 0x01 ≤ 0x01 := Nat.and_le_right
  have h2 : y &&& 0xF0 ≤ 0xF0 := Nat.and_le_right
  rw [Nat.shiftLeft_eq, Nat.shiftRight_eq_div_pow,
    lor_of_disjoint ((x &&& 0x01) * 2 ^ 4) ((y &&& 0xF0) / 2 ^ 4) 4 (by omega) (by omega)]
  omega

theorem bndS4 (x y : Nat) (hy : y < 256) : (((x &&& 0x0F) <<< 1) ||| (y >>> 7)) < 32 := by
  have h1 : x &&& 0x0F ≤ 0x0F := Nat.and_le_right
  rw [Nat.shiftLeft_eq, Nat.shiftRight_eq_div_pow,
    lor_of_disjoint ((x &&& 0x0F) * 2 ^ 1) (y / 2 ^ 7) 1 (by omega) (by omega)]
  omega

theorem bndS5 (x : Nat) : (x &&& 0x7C) >>> 2 < 32 := by
  have h : x &&& 0x7C ≤ 0x7C := Nat.and_le_right
  rw [Nat.shiftRight_eq_div_pow]
  omega

theorem bndS6 (x y : Nat) : (((x &&& 0x03) <<< 3) ||| ((y &&& 0xE0) >>> 5)) < 32 := by
  have h1 : x &&& 0x03 ≤ 0x03 := Nat.and_le_right
  have h2 : y &&& 0xE0 ≤ 0xE0 := Nat.and_le_right
  rw [Nat.shiftLeft_eq, Nat.shiftRight_eq_div_pow,
    lor_of_disjoint ((x &&& 0x03) * 2 ^ 3) ((y &&& 0xE0) / 2 ^ 5) 3 (by omega) (by omega)]
  omega

theorem bndS7 (x : Nat) : x &&& 0x1F < 32 := by
  have h : x &&& 0x1F ≤ 0x1F := Nat.and_le_right
  omega

/-- Inverse-table correctness: looking up any alphabet symbol recovers its index. -/
theorem lookupU : ∀ s, s < 32 → lookupChar (CROCKFORD.getD s 0) = some s := by decide

theorem lookupL : ∀ s, s < 32 → lookupChar (CROCKFORD_LOWER.getD s 0) = some s := by decide

/-- No alphabet symbol is the pad character. -/
theorem padU : ∀ s, s < 32 → (CROCKFORD.getD s 0 == 61) = false := by decide

theorem padL : ∀ s, s < 32 → (CROCKFORD_LOWER.getD s 0 == 61) = false := by decide

/-- Big-endian 2-byte reassembly as arithmetic. -/
theorem be2 (x y : Nat) (hy : y < 256) : (x <<< 8) ||| y = x * 256 + y := by
  rw [Nat.shiftLeft_eq, lor_of_disjoint (x * 2 ^ 8) y 8 (by omega) (by omega)]

/-- Big-endian 4-byte reassembly as arithmetic. -/
theorem be4 (x y z w : Nat) (hy : y < 256) (hz : z < 256) (hw : w < 256) :
    (x <<< 24) ||| (y <<< 16) ||| (z <<< 8) ||| w =
      ((x * 256 + y) * 256 + z) * 256 + w := by
  rw [Nat.shiftLeft_eq, Nat.shiftLeft_eq, Nat.shiftLeft_eq, Nat.lor_assoc, Nat.lor_assoc,
    lor_of_disjoint (z * 2 ^ 8) w 8 (by omega) (by omega),
    lor_of_disjoint (y * 2 ^ 16) (z * 2 ^ 8 + w) 16 (by omega) (by omega),
    lor_of_disjoint (x * 2 ^ 24) (y * 2 ^ 16 + (z * 2 ^ 8 + w)) 24 (by omega) (by omega)]
  ring

/-- Unfolding of `bytesCmp` on two cons cells. -/
theorem bytesCmp_cons (x y : Nat) (tx ty : List Nat) :
    bytesCmp (x :: tx) (y :: ty) =
      if x < y then .lt else if y < x then .gt else bytesCmp tx ty := rfl

theorem bytesCmp_cons_self (x : Nat) (tx ty : List Nat) :
    bytesCmp (x :: tx) (x :: ty) = bytesCmp tx ty := by
  rw [bytesCmp_cons, if_neg (Nat.lt_irrefl x), if_neg (Nat.lt_irrefl x)]

theorem bytesCmp_cons_lt (x y : Nat) (tx ty : List Nat) (h : x < y) :
    bytesCmp (x :: tx) (y :: ty) = .lt := by
  rw [bytesCmp_cons, if_pos h]

theorem take6_cons (a b c d e f : Nat) (l : List Nat) :
    List.take 6 (a :: b :: c :: d :: e :: f :: l) = [a, b, c, d, e, f] := rfl

/-- Smaller 48-bit values give lexicographically smaller big-endian 6-byte prefixes. -/
theorem be6_lt_aux (a b : Nat) (ha : a < 2 ^ 48) (hb : b < 2 ^ 48) (h : a < b)
    (ra rb : List Nat) :
    bytesCmp
      (a / 2 ^ 40 % 256 :: a / 2 ^ 32 % 256 :: a / 2 ^ 24 % 256 ::
        a / 2 ^ 16 % 256 :: a / 2 ^ 8 % 256 :: a % 256 :: ra)
      (b / 2 ^ 40 % 256 :: b / 2 ^ 32 % 256 :: b / 2 ^ 24 % 256 ::
        b / 2 ^ 16 % 256 :: b / 2 ^ 8 % 256 :: b % 256 :: rb) = .lt := by
  rcases Nat.lt_trichotomy (a / 2 ^ 40 % 256) (b / 2 ^ 40 % 256) with h1 | h1 | h1
  · exact bytesCmp_cons_lt _ _ _ _ h1
  · rw [h1, bytesCmp_cons_self]
    rcases Nat.lt_trichotomy (a / 2 ^ 32 % 256) (b / 2 ^ 32 % 256) with h2 | h2 | h2
    · exact bytesCmp_cons_lt _ _ _ _ h2
    · rw [h2, bytesCmp_cons_self]
      rcases Nat.lt_trichotomy (a / 2 ^ 24 % 256) (b / 2 ^ 24 % 256) with h3 | h3 | h3
      · exact bytesCmp_cons_lt _ _ _ _ h3
      · rw [h3, bytesCmp_cons_self]
        rcases Nat.lt_trichotomy (a / 2 ^ 16 % 256) (b / 2 ^ 16 % 256) with h4 | h4 | h4
        · exact bytesCmp_cons_lt _ _ _ _ h4
        · rw [h4, bytesCmp_cons_self]
          rcases Nat.lt_trichotomy (a / 2 ^ 8 % 256) (b / 2 ^ 8 % 256) with h5 | h5 | h5
          · exact bytesCmp_cons_lt _ _ _ _ h5
          · rw [h5, bytesCmp_cons_self]
            rcases Nat.lt_trichotomy (a % 256) (b % 256) with h6 | h6 | h6
            · exact bytesCmp_cons_lt _ _ _ _ h6
            · exfalso
              omega
            · exfalso
              omega
          · exfalso
            omega
        · exfalso
          omega
      · exfalso
        omega
    · exfalso
      omega
  · exfalso
    omega

/-! Section: Claim C2: the fixed test vector -/

/-- C2: the byte buffer [1,103,245,214,154,12,107,200,228,194,102,58,236,82,247,87]
encodes with the lowercase alphabet to "05kzbnmt1hnwhs62crxermqqaw"; decoding
that string returns the same 16 bytes; `as_millis` on that identifier returns
1546017741324; and `as_fields` returns (23590358, 39436, 27592, 3837945402,
3964860247). -/
theorem claim_C2_fixed_vector :
    encode Case.Lower vecBytes = strBytes ("05kzbnmt1hnwhs62crxermqqaw") ∧
    decode (strBytes ("05kzbnmt1hnwhs62crxermqqaw")) = .ok vecBytes ∧
    parse_str (strBytes ("05kzbnmt1hnwhs62crxermqqaw")) = some (.ok (from_bytes vecBytes)) ∧
    as_millis (from_bytes vecBytes) = 1546017741324 ∧
    as_fields (from_bytes vecBytes) = (23590358, 39436, 27592, 3837945402, 3964860247) :=
  ⟨by decide, by decide, by decide, by decide, by decide⟩

/-! Section: Claim C7: from_slice length validation -/

/-- C7: `from_slice s` returns an error carrying expected 16 and found
`s.length` exactly when the length is not 16; otherwise it returns the
identifier whose bytes are `s` verbatim; in particular `from_slice [1,2,3,4]`
fails with expected 16, found 4. -/
theorem claim_C7_from_slice (s : List Nat) :
    (from_slice s = .error ⟨16, s.length⟩ ↔ s.length ≠ 16) ∧
    (s.length = 16 → from_slice s = .ok (from_bytes s)) ∧
    from_slice [1, 2, 3, 4] = .error ⟨16, 4⟩ := by
  refine ⟨⟨fun h hlen => ?_, fun h => ?_⟩, fun h => ?_, by decide⟩
  · simp [from_slice, hlen] at h
  · simp [from_slice, h]
  · simp [from_slice, h]

/-- Witness for C7 at a concrete 16-byte slice. -/
theorem claim_C7_from_slice_witness :
    from_slice (List.replicate 16 0) = .ok (from_bytes (List.replicate 16 0)) :=
  (claim_C7_from_slice (List.replicate 16 0)).2.1 (by decide)

/-! Section: Claim C6: from_millis_bytes and as_millis -/

/-- C6: `from_millis_bytes millis r` sets bytes 0-5 to the low 48 bits of
`millis` big-endian (out-of-range values are truncated to their low 48 bits,
never rejected) and bytes 6-15 to `r` unchanged; `as_millis` of the result is
`millis` whenever `millis` lies in the signed 48-bit range. -/
theorem claim_C6_from_millis_bytes (millis : Int) (r : List Nat) :
    ((from_millis_bytes millis r).bytes =
      [(millis % ((2 ^ 48 : Nat) : Int)).toNat / 2 ^ 40 % 256,
       (millis % ((2 ^ 48 : Nat) : Int)).toNat / 2 ^ 32 % 256,
       (millis % ((2 ^ 48 : Nat) : Int)).toNat / 2 ^ 24 % 256,
       (millis % ((2 ^ 48 : Nat) : Int)).toNat / 2 ^ 16 % 256,
       (millis % ((2 ^ 48 : Nat) : Int)).toNat / 2 ^ 8 % 256,
       (millis % ((2 ^ 48 : Nat) : Int)).toNat % 256] ++ r) ∧
    (-((2 ^ 47 : Nat) : Int) ≤ millis → millis < ((2 ^ 47 : Nat) : Int) →
      as_millis (from_millis_bytes millis r) = millis) := by
  constructor
  · simp [from_millis_bytes, write_i48, from_bytes]
  · intro h1 h2
    simp only [as_millis, from_millis_bytes, write_i48, from_bytes, read_i48,
      List.nil_append, take6_cons, List.cons_append, List.getD_cons_zero, List.getD_cons_succ]
    split_ifs <;> omega

/-- Witness for C6 at the fixed-vector timestamp. -/
theorem claim_C6_from_millis_bytes_witness :
    as_millis (from_millis_bytes 1546017741324 (List.replicate 10 7)) = 1546017741324 :=
  (claim_C6_from_millis_bytes 1546017741324 (List.replicate 10 7)).2 (by decide) (by decide)

/-! Section: Claim C3: chronological ordering (corrected) -/

/-- C3 is false as stated: the timestamps -1 < 0 give identifiers where the
first is ranked after the second, because the low 48 bits of -1 are all ones. -/
theorem claim_C3_counterexample :
    (-1 : Int) < 0 ∧
    ulidCmp (from_millis_bytes (-1) (List.replicate 10 0))
        (from_millis_bytes 0 (List.replicate 10 0)) ≠ .lt :=
  ⟨by decide, by decide⟩

/-- C3 (amended): for millisecond timestamps within the unsigned 48-bit range
(0 ≤ tA < tB < 2^48) and arbitrary random parts, the byte-wise comparison
ranks the identifier of tA strictly before that of tB. -/
theorem claim_C3_amended (tA tB : Int) (ra rb : List Nat)
    (h0 : 0 ≤ tA) (hAB : tA < tB) (hB : tB < ((2 ^ 48 : Nat) : Int)) :
    ulidCmp (from_millis_bytes tA ra) (from_millis_bytes tB rb) = .lt := by
  have hlt : (tA % ((2 ^ 48 : Nat) : Int)).toNat < (tB % ((2 ^ 48 : Nat) : Int)).toNat := by
    omega
  have ha48 : (tA % ((2 ^ 48 : Nat) : Int)).toNat < 2 ^ 48 := by omega
  have hb48 : (tB % ((2 ^ 48 : Nat) : Int)).toNat < 2 ^ 48 := by omega
  simp only [ulidCmp, from_millis_bytes, write_i48, from_bytes, List.nil_append,
    take6_cons, List.cons_append]
  generalize (tA % ((2 ^ 48 : Nat) : Int)).toNat = a at hlt ha48
  generalize (tB % ((2 ^ 48 : Nat) : Int)).toNat = b at hlt hb48
  exact be6_lt_aux a b ha48 hb48 hlt ra rb

/-- Witness for the amended C3 at timestamps 5 < 9. -/
theorem claim_C3_amended_witness :
    ulidCmp (from_millis_bytes 5 (List.replicate 10 0))
      (from_millis_bytes 9 (List.replicate 10 0)) = .lt :=
  claim_C3_amended 5 9 (List.replicate 10 0) (List.replicate 10 0)
    (by decide) (by decide) (by decide)

/-! Section: Claim C5: field tuple round-trips -/

/-- C5: `from_fields` and `as_fields` are exact inverses: field tuples within
their widths round-trip through the bytes, an identifier round-trips through
its field tuple, and the 16 bytes are the big-endian concatenation of f1
(4 bytes), f2 (2), f3 (2), f4 (4), f5 (4) in that order. -/
theorem claim_C5_fields :
    (∀ f1 f2 f3 f4 f5 : Nat,
      (from_fields f1 f2 f3 f4 f5).bytes =
        [f1 / 2 ^ 24 % 256, f1 / 2 ^ 16 % 256, f1 / 2 ^ 8 % 256, f1 % 256,
         f2 / 2 ^ 8 % 256, f2 % 256, f3 / 2 ^ 8 % 256, f3 % 256,
         f4 / 2 ^ 24 % 256, f4 / 2 ^ 16 % 256, f4 / 2 ^ 8 % 256, f4 % 256,
         f5 / 2 ^ 24 % 256, f5 / 2 ^ 16 % 256, f5 / 2 ^ 8 % 256, f5 % 256]) ∧
    (∀ f1 f2 f3 f4 f5 : Nat, f1 < 2 ^ 32 → f2 < 2 ^ 16 → f3 < 2 ^ 16 →
      f4 < 2 ^ 32 → f5 < 2 ^ 32 →
      as_fields (from_fields f1 f2 f3 f4 f5) = (f1, f2, f3, f4, f5)) ∧
    (∀ u : Ulid, u.bytes.length = 16 → (∀ x ∈ u.bytes, x < 256) →
      from_fields (as_fields u).1 (as_fields u).2.1 (as_fields u).2.2.1
        (as_fields u).2.2.2.1 (as_fields u).2.2.2.2 = u) := by
  refine ⟨fun f1 f2 f3 f4 f5 => ?_, fun f1 f2 f3 f4 f5 h1 h2 h3 h4 h5 => ?_,
    fun u hlen hmem => ?_⟩
  · simp only [from_fields, from_bytes, Nat.shiftRight_eq_div_pow]
  · simp only [from_fields, from_bytes, as_fields, List.getD_cons_zero, List.getD_cons_succ]
    rw [be4 _ _ _ _ (by omega) (by omega) (by omega),
      be2 _ _ (by omega), be2 _ _ (by omega),
      be4 _ _ _ _ (by omega) (by omega) (by omega),
      be4 _ _ _ _ (by omega) (by omega) (by omega)]
    simp only [Nat.shiftRight_eq_div_pow, Prod.mk.injEq]
    omega
  · obtain ⟨bs⟩ := u
    simp only at hlen hmem ⊢
    rcases bs with _ | ⟨b0, _ | ⟨b1, _ | ⟨b2, _ | ⟨b3, _ | ⟨b4, _ | ⟨b5, _ | ⟨b6, _ |
      ⟨b7, _ | ⟨b8, _ | ⟨b9, _ | ⟨b10, _ | ⟨b11, _ | ⟨b12, _ | ⟨b13, _ | ⟨b14, _ |
      ⟨b15, _ | ⟨b16, tl⟩⟩⟩⟩⟩⟩⟩⟩⟩⟩⟩⟩⟩⟩⟩⟩⟩ <;> simp at hlen
    simp only [List.mem_cons, List.not_mem_nil, or_false, forall_eq_or_imp, forall_eq] at hmem
    obtain ⟨g0, g1, g2, g3, g4, g5, g6, g7, g8, g9, g10, g11, g12, g13, g14, g15⟩ := hmem
    simp only [as_fields, List.getD_cons_zero, List.getD_cons_succ]
    rw [be4 _ _ _ _ g1 g2 g3, be2 _ _ g5, be2 _ _ g7,
      be4 _ _ _ _ g9 g10 g11, be4 _ _ _ _ g13 g14 g15]
    simp only [from_fields, from_bytes, Nat.shiftRight_eq_div_pow, Ulid.mk.injEq,
      List.cons.injEq, and_true]
    omega

/-- Witness for C5 at the fixed-vector field tuple. -/
theorem claim_C5_fields_witness :
    as_fields (from_fields 23590358 39436 27592 3837945402 3964860247) =
      (23590358, 39436, 27592, 3837945402, 3964860247) :=
  by apply claim_C5_fields.2.1 23590358 39436 27592 3837945402 3964860247 <;> decide

/-- One step of the per-character loop when the lookup succeeds. -/
theorem decodeVals_cons (c v : Nat) (rest : List Nat) (i : Nat)
    (h : lookupChar c = some v) :
    decodeVals (c :: rest) i = (decodeVals rest (i + 1)).map (fun vs => v :: vs) := by
  simp only [decodeVals, h]

/-- Unfolding of `encode` on a 16-byte buffer with the uppercase alphabet. -/
theorem encode16_upper (b0 b1 b2 b3 b4 b5 b6 b7 b8 b9 b10 b11 b12 b13 b14 b15 : Nat) :
    encode Case.Upper [b0, b1, b2, b3, b4, b5, b6, b7, b8, b9, b10, b11, b12, b13, b14, b15] =
    [CROCKFORD.getD ((b0 &&& 248) >>> 3) 0,
     CROCKFORD.getD (((b0 &&& 7) <<< 2) ||| ((b1 &&& 192) >>> 6)) 0,
     CROCKFORD.getD ((b1 &&& 62) >>> 1) 0,
     CROCKFORD.getD (((b1 &&& 1) <<< 4) ||| ((b2 &&& 240) >>> 4)) 0,
     CROCKFORD.getD (((b2 &&& 15) <<< 1) ||| (b3 >>> 7)) 0,
     CROCKFORD.getD ((b3 &&& 124) >>> 2) 0,
     CROCKFORD.getD (((b3 &&& 3) <<< 3) ||| ((b4 &&& 224) >>> 5)) 0,
     CROCKFORD.getD (b4 &&& 31) 0,
     CROCKFORD.getD ((b5 &&& 248) >>> 3) 0,
     CROCKFORD.getD (((b5 &&& 7) <<< 2) ||| ((b6 &&& 192) >>> 6)) 0,
     CROCKFORD.getD ((b6 &&& 62) >>> 1) 0,
     CROCKFORD.getD (((b6 &&& 1) <<< 4) ||| ((b7 &&& 240) >>> 4)) 0,
     CROCKFORD.getD (((b7 &&& 15) <<< 1) ||| (b8 >>> 7)) 0,
     CROCKFORD.getD ((b8 &&& 124) >>> 2) 0,
     CROCKFORD.getD (((b8 &&& 3) <<< 3) ||| ((b9 &&& 224) >>> 5)) 0,
     CROCKFORD.getD (b9 &&& 31) 0,
     CROCKFORD.getD ((b10 &&& 248) >>> 3) 0,
     CROCKFORD.getD (((b10 &&& 7) <<< 2) ||| ((b11 &&& 192) >>> 6)) 0,
     CROCKFORD.getD ((b11 &&& 62) >>> 1) 0,
     CROCKFORD.getD (((b11 &&& 1) <<< 4) ||| ((b12 &&& 240) >>> 4)) 0,
     CROCKFORD.getD (((b12 &&& 15) <<< 1) ||| (b13 >>> 7)) 0,
     CROCKFORD.getD ((b13 &&& 124) >>> 2) 0,
     CROCKFORD.getD (((b13 &&& 3) <<< 3) ||| ((b14 &&& 224) >>> 5)) 0,
     CROCKFORD.getD (b14 &&& 31) 0,
     CROCKFORD.getD ((b15 &&& 248) >>> 3) 0,
     CROCKFORD.getD (((b15 &&& 7) <<< 2) ||| ((0 &&& 192) >>> 6)) 0] := by
  have hlen : ([b0, b1, b2, b3, b4, b5, b6, b7, b8, b9, b10, b11, b12, b13, b14, b15] : List Nat).length = 16 := by simp
  have h1 : encode Case.Upper [b0, b1, b2, b3, b4, b5, b6, b7, b8, b9, b10, b11, b12, b13, b14, b15] =
      [CROCKFORD.getD ((b0 &&& 248) >>> 3) 0,
       CROCKFORD.getD (((b0 &&& 7) <<< 2) ||| ((b1 &&& 192) >>> 6)) 0,
       CROCKFORD.getD ((b1 &&& 62) >>> 1) 0,
       CROCKFORD.getD (((b1 &&& 1) <<< 4) ||| ((b2 &&& 240) >>> 4)) 0,
       CROCKFORD.getD (((b2 &&& 15) <<< 1) ||| (b3 >>> 7)) 0,
       CROCKFORD.getD ((b3 &&& 124) >>> 2) 0,
       CROCKFORD.getD (((b3 &&& 3) <<< 3) ||| ((b4 &&& 224) >>> 5)) 0,
       CROCKFORD.getD (b4 &&& 31) 0,
       CROCKFORD.getD ((b5 &&& 248) >>> 3) 0,
       CROCKFORD.getD (((b5 &&& 7) <<< 2) ||| ((b6 &&& 192) >>> 6)) 0,
       CROCKFORD.getD ((b6 &&& 62) >>> 1) 0,
       CROCKFORD.getD (((b6 &&& 1) <<< 4) ||| ((b7 &&& 240) >>> 4)) 0,
       CROCKFORD.getD (((b7 &&& 15) <<< 1) ||| (b8 >>> 7)) 0,
       CROCKFORD.getD ((b8 &&& 124) >>> 2) 0,
       CROCKFORD.getD (((b8 &&& 3) <<< 3) ||| ((b9 &&& 224) >>> 5)) 0,
       CROCKFORD.getD (b9 &&& 31) 0,
       CROCKFORD.getD ((b10 &&& 248) >>> 3) 0,
       CROCKFORD.getD (((b10 &&& 7) <<< 2) ||| ((b11 &&& 192) >>> 6)) 0,
       CROCKFORD.getD ((b11 &&& 62) >>> 1) 0,
       CROCKFORD.getD (((b11 &&& 1) <<< 4) ||| ((b12 &&& 240) >>> 4)) 0,
       CROCKFORD.getD (((b12 &&& 15) <<< 1) ||| (b13 >>> 7)) 0,
       CROCKFORD.getD ((b13 &&& 124) >>> 2) 0,
       CROCKFORD.getD (((b13 &&& 3) <<< 3) ||| ((b14 &&& 224) >>> 5)) 0,
       CROCKFORD.getD (b14 &&& 31) 0,
       CROCKFORD.getD ((b15 &&& 248) >>> 3) 0,
       CROCKFORD.getD (((b15 &&& 7) <<< 2) ||| ((0 &&& 192) >>> 6)) 0,
       CROCKFORD.getD ((0 &&& 62) >>> 1) 0,
       CROCKFORD.getD (((0 &&& 1) <<< 4) ||| ((0 &&& 240) >>> 4)) 0,
       CROCKFORD.getD (((0 &&& 15) <<< 1) ||| (0 >>> 7)) 0,
       CROCKFORD.getD ((0 &&& 124) >>> 2) 0,
       CROCKFORD.getD (((0 &&& 3) <<< 3) ||| ((0 &&& 224) >>> 5)) 0,
       CROCKFORD.getD (0 &&& 31) 0].take 26 := by
    simp only [encode, hlen, chunks5, encChunk5, encIdx, List.map_cons, List.map_nil,
      List.flatten, List.getD_cons_zero, List.getD_cons_succ, List.getD_nil,
      List.cons_append, List.nil_append, List.append_nil, List.length_cons, List.length_nil]
    norm_num
  rw [h1]
  rfl

/-- Unfolding of `encode` on a 16-byte buffer with the lowercase alphabet. -/
theorem encode16_lower (b0 b1 b2 b3 b4 b5 b6 b7 b8 b9 b10 b11 b12 b13 b14 b15 : Nat) :
    encode Case.Lower [b0, b1, b2, b3, b4, b5, b6, b7, b8, b9, b10, b11, b12, b13, b14, b15] =
    [CROCKFORD_LOWER.getD ((b0 &&& 248) >>> 3) 0,
     CROCKFORD_LOWER.getD (((b0 &&& 7) <<< 2) ||| ((b1 &&& 192) >>> 6)) 0,
     CROCKFORD_LOWER.getD ((b1 &&& 62) >>> 1) 0,
     CROCKFORD_LOWER.getD (((b1 &&& 1) <<< 4) ||| ((b2 &&& 240) >>> 4)) 0,
     CROCKFORD_LOWER.getD (((b2 &&& 15) <<< 1) ||| (b3 >>> 7)) 0,
     CROCKFORD_LOWER.getD ((b3 &&& 124) >>> 2) 0,
     CROCKFORD_LOWER.getD (((b3 &&& 3) <<< 3) ||| ((b4 &&& 224) >>> 5)) 0,
     CROCKFORD_LOWER.getD (b4 &&& 31) 0,
     CROCKFORD_LOWER.getD ((b5 &&& 248) >>> 3) 0,
     CROCKFORD_LOWER.getD (((b5 &&& 7) <<< 2) ||| ((b6 &&& 192) >>> 6)) 0,
     CROCKFORD_LOWER.getD ((b6 &&& 62) >>> 1) 0,
     CROCKFORD_LOWER.getD (((b6 &&& 1) <<< 4) ||| ((b7 &&& 240) >>> 4)) 0,
     CROCKFORD_LOWER.getD (((b7 &&& 15) <<< 1) ||| (b8 >>> 7)) 0,
     CROCKFORD_LOWER.getD ((b8 &&& 124) >>> 2) 0,
     CROCKFORD_LOWER.getD (((b8 &&& 3) <<< 3) ||| ((b9 &&& 224) >>> 5)) 0,
     CROCKFORD_LOWER.getD (b9 &&& 31) 0,
     CROCKFORD_LOWER.getD ((b10 &&& 248) >>> 3) 0,
     CROCKFORD_LOWER.getD (((b10 &&& 7) <<< 2) ||| ((b11 &&& 192) >>> 6)) 0,
     CROCKFORD_LOWER.getD ((b11 &&& 62) >>> 1) 0,
     CROCKFORD_LOWER.getD (((b11 &&& 1) <<< 4) ||| ((b12 &&& 240) >>> 4)) 0,
     CROCKFORD_LOWER.getD (((b12 &&& 15) <<< 1) ||| (b13 >>> 7)) 0,
     CROCKFORD_LOWER.getD ((b13 &&& 124) >>> 2) 0,
     CROCKFORD_LOWER.getD (((b13 &&& 3) <<< 3) ||| ((b14 &&& 224) >>> 5)) 0,
     CROCKFORD_LOWER.getD (b14 &&& 31) 0,
     CROCKFORD_LOWER.getD ((b15 &&& 248) >>> 3) 0,
     CROCKFORD_LOWER.getD (((b15 &&& 7) <<< 2) ||| ((0 &&& 192) >>> 6)) 0] := by
  have hlen : ([b0, b1, b2, b3, b4, b5, b6, b7, b8, b9, b10, b11, b12, b13, b14, b15] : List Nat).length = 16 := by simp
  have h1 : encode Case.Lower [b0, b1, b2, b3, b4, b5, b6, b7, b8, b9, b10, b11, b12, b13, b14, b15] =
      [CROCKFORD_LOWER.getD ((b0 &&& 248) >>> 3) 0,
       CROCKFORD_LOWER.getD (((b0 &&& 7) <<< 2) ||| ((b1 &&& 192) >>> 6)) 0,
       CROCKFORD_LOWER.getD ((b1 &&& 62) >>> 1) 0,
       CROCKFORD_LOWER.getD (((b1 &&& 1) <<< 4) ||| ((b2 &&& 240) >>> 4)) 0,
       CROCKFORD_LOWER.getD (((b2 &&& 15) <<< 1) ||| (b3 >>> 7)) 0,
       CROCKFORD_LOWER.getD ((b3 &&& 124) >>> 2) 0,
       CROCKFORD_LOWER.getD (((b3 &&& 3) <<< 3) ||| ((b4 &&& 224) >>> 5)) 0,
       CROCKFORD_LOWER.getD (b4 &&& 31) 0,
       CROCKFORD_LOWER.getD ((b5 &&& 248) >>> 3) 0,
       CROCKFORD_LOWER.getD (((b5 &&& 7) <<< 2) ||| ((b6 &&& 192) >>> 6)) 0,
       CROCKFORD_LOWER.getD ((b6 &&& 62) >>> 1) 0,
       CROCKFORD_LOWER.getD (((b6 &&& 1) <<< 4) ||| ((b7 &&& 240) >>> 4)) 0,
       CROCKFORD_LOWER.getD (((b7 &&& 15) <<< 1) ||| (b8 >>> 7)) 0,
       CROCKFORD_LOWER.getD ((b8 &&& 124) >>> 2) 0,
       CROCKFORD_LOWER.getD (((b8 &&& 3) <<< 3) ||| ((b9 &&& 224) >>> 5)) 0,
       CROCKFORD_LOWER.getD (b9 &&& 31) 0,
       CROCKFORD_LOWER.getD ((b10 &&& 248) >>> 3) 0,
       CROCKFORD_LOWER.getD (((b10 &&& 7) <<< 2) ||| ((b11 &&& 192) >>> 6)) 0,
       CROCKFORD_LOWER.getD ((b11 &&& 62) >>> 1) 0,
       CROCKFORD_LOWER.getD (((b11 &&& 1) <<< 4) ||| ((b12 &&& 240) >>> 4)) 0,
       CROCKFORD_LOWER.getD (((b12 &&& 15) <<< 1) ||| (b13 >>> 7)) 0,
       CROCKFORD_LOWER.getD ((b13 &&& 124) >>> 2) 0,
       CROCKFORD_LOWER.getD (((b13 &&& 3) <<< 3) ||| ((b14 &&& 224) >>> 5)) 0,
       CROCKFORD_LOWER.getD (b14 &&& 31) 0,
       CROCKFORD_LOWER.getD ((b15 &&& 248) >>> 3) 0,
       CROCKFORD_LOWER.getD (((b15 &&& 7) <<< 2) ||| ((0 &&& 192) >>> 6)) 0,
       CROCKFORD_LOWER.getD ((0 &&& 62) >>> 1) 0,
       CROCKFORD_LOWER.getD (((0 &&& 1) <<< 4) ||| ((0 &&& 240) >>> 4)) 0,
       CROCKFORD_LOWER.getD (((0 &&& 15) <<< 1) ||| (0 >>> 7)) 0,
       CROCKFORD_LOWER.getD ((0 &&& 124) >>> 2) 0,
       CROCKFORD_LOWER.getD (((0 &&& 3) <<< 3) ||| ((0 &&& 224) >>> 5)) 0,
       CROCKFORD_LOWER.getD (0 &&& 31) 0].take 26 := by
    simp only [encode, hlen, chunks5, encChunk5, encIdx, List.map_cons, List.map_nil,
      List.flatten, List.getD_cons_zero, List.getD_cons_succ, List.getD_nil,
      List.cons_append, List.nil_append, List.append_nil, List.length_cons, List.length_nil]
    norm_num
  rw [h1]
  rfl

/-- Decoding a 26-character string whose characters all have successful
inverse-table lookups: the result is the reassembled 16 bytes. -/
theorem decode_literal26
    {e0 e1 e2 e3 e4 e5 e6 e7 e8 e9 e10 e11 e12 e13 e14 e15 e16 e17 e18 e19 e20 e21 e22 e23 e24 e25 : Nat}
    {v0 v1 v2 v3 v4 v5 v6 v7 v8 v9 v10 v11 v12 v13 v14 v15 v16 v17 v18 v19 v20 v21 v22 v23 v24 v25 : Nat}
    (h0 : lookupChar e0 = some v0)
    (h1 : lookupChar e1 = some v1)
    (h2 : lookupChar e2 = some v2)
    (h3 : lookupChar e3 = some v3)
    (h4 : lookupChar e4 = some v4)
    (h5 : lookupChar e5 = some v5)
    (h6 : lookupChar e6 = some v6)
    (h7 : lookupChar e7 = some v7)
    (h8 : lookupChar e8 = some v8)
    (h9 : lookupChar e9 = some v9)
    (h10 : lookupChar e10 = some v10)
    (h11 : lookupChar e11 = some v11)
    (h12 : lookupChar e12 = some v12)
    (h13 : lookupChar e13 = some v13)
    (h14 : lookupChar e14 = some v14)
    (h15 : lookupChar e15 = some v15)
    (h16 : lookupChar e16 = some v16)
    (h17 : lookupChar e17 = some v17)
    (h18 : lookupChar e18 = some v18)
    (h19 : lookupChar e19 = some v19)
    (h20 : lookupChar e20 = some v20)
    (h21 : lookupChar e21 = some v21)
    (h22 : lookupChar e22 = some v22)
    (h23 : lookupChar e23 = some v23)
    (h24 : lookupChar e24 = some v24)
    (h25 : lookupChar e25 = some v25)
    (hpad : (e25 == 61) = false) :
    decode [e0, e1, e2, e3, e4, e5, e6, e7, e8, e9, e10, e11, e12, e13, e14, e15, e16, e17, e18, e19, e20, e21, e22, e23, e24, e25] =
    .ok
      [((v0 <<< 3) % 256) ||| (v1 >>> 2),
       ((v1 <<< 6) % 256) ||| ((v2 <<< 1) % 256) ||| (v3 >>> 4),
       ((v3 <<< 4) % 256) ||| (v4 >>> 1),
       ((v4 <<< 7) % 256) ||| ((v5 <<< 2) % 256) ||| (v6 >>> 3),
       ((v6 <<< 5) % 256) ||| v7,
       ((v8 <<< 3) % 256) ||| (v9 >>> 2),
       ((v9 <<< 6) % 256) ||| ((v10 <<< 1) % 256) ||| (v11 >>> 4),
       ((v11 <<< 4) % 256) ||| (v12 >>> 1),
       ((v12 <<< 7) % 256) ||| ((v13 <<< 2) % 256) ||| (v14 >>> 3),
       ((v14 <<< 5) % 256) ||| v15,
       ((v16 <<< 3) % 256) ||| (v17 >>> 2),
       ((v17 <<< 6) % 256) ||| ((v18 <<< 1) % 256) ||| (v19 >>> 4),
       ((v19 <<< 4) % 256) ||| (v20 >>> 1),
       ((v20 <<< 7) % 256) ||| ((v21 <<< 2) % 256) ||| (v22 >>> 3),
       ((v22 <<< 5) % 256) ||| v23,
       ((v24 <<< 3) % 256) ||| (v25 >>> 2)] := by
  have hdv1 : decodeVals [e0, e1, e2, e3, e4, e5, e6, e7] 0 = .ok [v0, v1, v2, v3, v4, v5, v6, v7] := by
    rw [decodeVals_cons _ _ _ _ h0, decodeVals_cons _ _ _ _ h1, decodeVals_cons _ _ _ _ h2, decodeVals_cons _ _ _ _ h3, decodeVals_cons _ _ _ _ h4, decodeVals_cons _ _ _ _ h5, decodeVals_cons _ _ _ _ h6, decodeVals_cons _ _ _ _ h7]
    rfl
  have hdv2 : decodeVals [e8, e9, e10, e11, e12, e13, e14, e15] 0 = .ok [v8, v9, v10, v11, v12, v13, v14, v15] := by
    rw [decodeVals_cons _ _ _ _ h8, decodeVals_cons _ _ _ _ h9, decodeVals_cons _ _ _ _ h10, decodeVals_cons _ _ _ _ h11, decodeVals_cons _ _ _ _ h12, decodeVals_cons _ _ _ _ h13, decodeVals_cons _ _ _ _ h14, decodeVals_cons _ _ _ _ h15]
    rfl
  have hdv3 : decodeVals [e16, e17, e18, e19, e20, e21, e22, e23] 0 = .ok [v16, v17, v18, v19, v20, v21, v22, v23] := by
    rw [decodeVals_cons _ _ _ _ h16, decodeVals_cons _ _ _ _ h17, decodeVals_cons _ _ _ _ h18, decodeVals_cons _ _ _ _ h19, decodeVals_cons _ _ _ _ h20, decodeVals_cons _ _ _ _ h21, decodeVals_cons _ _ _ _ h22, decodeVals_cons _ _ _ _ h23]
    rfl
  have hdv4 : decodeVals [e24, e25] 0 = .ok [v24, v25] := by
    rw [decodeVals_cons _ _ _ _ h24, decodeVals_cons _ _ _ _ h25]
    rfl
  have hc1 : decodeChunk [e0, e1, e2, e3, e4, e5, e6, e7] =
      .ok (bytes5 [v0, v1, v2, v3, v4, v5, v6, v7]) := by
    simp only [decodeChunk, hdv1]
    rfl
  have hc2 : decodeChunk [e8, e9, e10, e11, e12, e13, e14, e15] =
      .ok (bytes5 [v8, v9, v10, v11, v12, v13, v14, v15]) := by
    simp only [decodeChunk, hdv2]
    rfl
  have hc3 : decodeChunk [e16, e17, e18, e19, e20, e21, e22, e23] =
      .ok (bytes5 [v16, v17, v18, v19, v20, v21, v22, v23]) := by
    simp only [decodeChunk, hdv3]
    rfl
  have hc4 : decodeChunk [e24, e25] =
      .ok (bytes5 [v24, v25, 0, 0, 0, 0, 0, 0]) := by
    simp only [decodeChunk, hdv4]
    rfl
  have hpc : padCount [e0, e1, e2, e3, e4, e5, e6, e7, e8, e9, e10, e11, e12, e13, e14, e15, e16, e17, e18, e19, e20, e21, e22, e23, e24, e25] = 0 := by
    simp only [padCount, List.reverse_cons, List.reverse_nil, List.nil_append,
      List.cons_append, List.takeWhile_cons, hpad, Bool.false_eq_true, if_false,
      List.length_nil]
    rfl
  have hchunks : chunks8 [e0, e1, e2, e3, e4, e5, e6, e7, e8, e9, e10, e11, e12, e13, e14, e15, e16, e17, e18, e19, e20, e21, e22, e23, e24, e25] =
      [[e0, e1, e2, e3, e4, e5, e6, e7], [e8, e9, e10, e11, e12, e13, e14, e15],
       [e16, e17, e18, e19, e20, e21, e22, e23], [e24, e25]] := rfl
  have hdcs : decodeChunks (chunks8 [e0, e1, e2, e3, e4, e5, e6, e7, e8, e9, e10, e11, e12, e13, e14, e15, e16, e17, e18, e19, e20, e21, e22, e23, e24, e25]) =
      .ok (bytes5 [v0, v1, v2, v3, v4, v5, v6, v7] ++
        (bytes5 [v8, v9, v10, v11, v12, v13, v14, v15] ++
          (bytes5 [v16, v17, v18, v19, v20, v21, v22, v23] ++
            (bytes5 [v24, v25, 0, 0, 0, 0, 0, 0] ++ [])))) := by
    rw [hchunks]
    simp only [decodeChunks, hc1, hc2, hc3, hc4]
    rfl
  simp only [decode, hdcs, hpc, List.length_cons, List.length_nil]
  rfl

/-- Per-byte round-trip identities for the 5-byte chunk codec. -/
theorem comp0 (x y : Nat) (hx : x < 256) (hy : y < 256) :
    ((((x &&& 248) >>> 3) <<< 3) % 256) ||| ((((x &&& 7) <<< 2) ||| ((y &&& 192) >>> 6)) >>> 2) = x := by
  rw [sB0 x hx, sB1 x y hx hy]
  simp only [Nat.shiftLeft_eq, Nat.shiftRight_eq_div_pow]
  rw [lor_of_disjoint (x / 8 * 2 ^ 3 % 256) ((x % 8 * 4 + y / 64) / 2 ^ 2) 3 (by omega) (by omega)]
  omega

theorem comp1 (x y z : Nat) (hx : x < 256) (hy : y < 256) (hz : z < 256) :
    (((((x &&& 7) <<< 2) ||| ((y &&& 192) >>> 6)) <<< 6) % 256) |||
      ((((y &&& 62) >>> 1) <<< 1) % 256) |||
      ((((y &&& 1) <<< 4) ||| ((z &&& 240) >>> 4)) >>> 4) = y := by
  rw [sB1 x y hx hy, sB2 y hy, sB3 y z hy hz]
  simp only [Nat.shiftLeft_eq, Nat.shiftRight_eq_div_pow]
  rw [lor_of_disjoint ((x % 8 * 4 + y / 64) * 2 ^ 6 % 256) (y % 64 / 2 * 2 ^ 1 % 256) 6
    (by omega) (by omega)]
  rw [lor_of_disjoint ((x % 8 * 4 + y / 64) * 2 ^ 6 % 256 + y % 64 / 2 * 2 ^ 1 % 256)
    ((y % 2 * 16 + z / 16) / 2 ^ 4) 1 (by omega) (by omega)]
  omega

theorem comp2 (x y z : Nat) (hx : x < 256) (hy : y < 256) (hz : z < 256) :
    (((((x &&& 1) <<< 4) ||| ((y &&& 240) >>> 4)) <<< 4) % 256) |||
      ((((y &&& 15) <<< 1) ||| (z >>> 7)) >>> 1) = y := by
  rw [sB3 x y hx hy, sB4 y z hy hz]
  simp only [Nat.shiftLeft_eq, Nat.shiftRight_eq_div_pow]
  rw [lor_of_disjoint ((x % 2 * 16 + y / 16) * 2 ^ 4 % 256) ((y % 16 * 2 + z / 128) / 2 ^ 1) 4
    (by omega) (by omega)]
  omega

theorem comp3 (x y z : Nat) (hx : x < 256) (hy : y < 256) (hz : z < 256) :
    (((((x &&& 15) <<< 1) ||| (y >>> 7)) <<< 7) % 256) |||
      ((((y &&& 124) >>> 2) <<< 2) % 256) |||
      ((((y &&& 3) <<< 3) ||| ((z &&& 224) >>> 5)) >>> 3) = y := by
  rw [sB4 x y hx hy, sB5 y hy, sB6 y z hy hz]
  simp only [Nat.shiftLeft_eq, Nat.shiftRight_eq_div_pow]
  rw [lor_of_disjoint ((x % 16 * 2 + y / 128) * 2 ^ 7 % 256) (y % 128 / 4 * 2 ^ 2 % 256) 7
    (by omega) (by omega)]
  rw [lor_of_disjoint ((x % 16 * 2 + y / 128) * 2 ^ 7 % 256 + y % 128 / 4 * 2 ^ 2 % 256)
    ((y % 4 * 8 + z / 32) / 2 ^ 3) 2 (by omega) (by omega)]
  omega

theorem comp4 (x y : Nat) (hx : x < 256) (hy : y < 256) :
    (((((x &&& 3) <<< 3) ||| ((y &&& 224) >>> 5)) <<< 5) % 256) ||| (y &&& 31) = y := by
  rw [sB6 x y hx hy, sB7 y hy]
  simp only [Nat.shiftLeft_eq, Nat.shiftRight_eq_div_pow]
  rw [lor_of_disjoint ((x % 4 * 8 + y / 32) * 2 ^ 5 % 256) (y % 32) 5 (by omega) (by omega)]
  omega

theorem comp_last (x : Nat) (hx : x < 256) :
    ((((x &&& 248) >>> 3) <<< 3) % 256) |||
      ((((x &&& 7) <<< 2) ||| ((0 &&& 192) >>> 6)) >>> 2) = x := by
  have h0 : ((0 &&& 192) >>> 6) = 0 := rfl
  rw [h0, Nat.or_zero, sB0 x hx, mask07 x hx]
  simp only [Nat.shiftLeft_eq, Nat.shiftRight_eq_div_pow]
  rw [lor_of_disjoint (x / 8 * 2 ^ 3 % 256) (x % 8 * 2 ^ 2 / 2 ^ 2) 3 (by omega) (by omega)]
  omega

theorem bndLast (x : Nat) : (((x &&& 7) <<< 2) ||| ((0 &&& 192) >>> 6)) < 32 := bndS1 x 0

/-! Section: Claim C1: decode is a left inverse of encode on 16-byte buffers -/

/-- C1: for every 16-byte buffer and both alphabets, decoding the 26-character
string produced by encoding the buffer returns exactly the buffer. -/
theorem claim_C1_roundtrip (casing : Case) (b0 b1 b2 b3 b4 b5 b6 b7 b8 b9 b10 b11 b12 b13 b14 b15 : Nat)
    (h0 : b0 < 256)
    (h1 : b1 < 256)
    (h2 : b2 < 256)
    (h3 : b3 < 256)
    (h4 : b4 < 256)
    (h5 : b5 < 256)
    (h6 : b6 < 256)
    (h7 : b7 < 256)
    (h8 : b8 < 256)
    (h9 : b9 < 256)
    (h10 : b10 < 256)
    (h11 : b11 < 256)
    (h12 : b12 < 256)
    (h13 : b13 < 256)
    (h14 : b14 < 256)
    (h15 : b15 < 256) :
    decode (encode casing [b0, b1, b2, b3, b4, b5, b6, b7, b8, b9, b10, b11, b12, b13, b14, b15]) =
      .ok [b0, b1, b2, b3, b4, b5, b6, b7, b8, b9, b10, b11, b12, b13, b14, b15] := by
  cases casing
  case Upper =>
    rw [encode16_upper b0 b1 b2 b3 b4 b5 b6 b7 b8 b9 b10 b11 b12 b13 b14 b15]
    rw [decode_literal26
      (lookupU _ (bndS0 b0))
      (lookupU _ (bndS1 b0 b1))
      (lookupU _ (bndS2 b1))
      (lookupU _ (bndS3 b1 b2))
      (lookupU _ (bndS4 b2 b3 h3))
      (lookupU _ (bndS5 b3))
      (lookupU _ (bndS6 b3 b4))
      (lookupU _ (bndS7 b4))
      (lookupU _ (bndS0 b5))
      (lookupU _ (bndS1 b5 b6))
      (lookupU _ (bndS2 b6))
      (lookupU _ (bndS3 b6 b7))
      (lookupU _ (bndS4 b7 b8 h8))
      (lookupU _ (bndS5 b8))
      (lookupU _ (bndS6 b8 b9))
      (lookupU _ (bndS7 b9))
      (lookupU _ (bndS0 b10))
      (lookupU _ (bndS1 b10 b11))
      (lookupU _ (bndS2 b11))
      (lookupU _ (bndS3 b11 b12))
      (lookupU _ (bndS4 b12 b13 h13))
      (lookupU _ (bndS5 b13))
      (lookupU _ (bndS6 b13 b14))
      (lookupU _ (bndS7 b14))
      (lookupU _ (bndS0 b15))
      (lookupU _ (bndLast b15))
      (padU _ (bndLast b15))]
    simp only [Except.ok.injEq, List.cons.injEq, and_true]
    and_intros
    · exact comp0 b0 b1 h0 h1
    · exact comp1 b0 b1 b2 h0 h1 h2
    · exact comp2 b1 b2 b3 h1 h2 h3
    · exact comp3 b2 b3 b4 h2 h3 h4
    · exact comp4 b3 b4 h3 h4
    · exact comp0 b5 b6 h5 h6
    · exact comp1 b5 b6 b7 h5 h6 h7
    · exact comp2 b6 b7 b8 h6 h7 h8
    · exact comp3 b7 b8 b9 h7 h8 h9
    · exact comp4 b8 b9 h8 h9
    · exact comp0 b10 b11 h10 h11
    · exact comp1 b10 b11 b12 h10 h11 h12
    · exact comp2 b11 b12 b13 h11 h12 h13
    · exact comp3 b12 b13 b14 h12 h13 h14
    · exact comp4 b13 b14 h13 h14
    · exact comp_last b15 h15
  case Lower =>
    rw [encode16_lower b0 b1 b2 b3 b4 b5 b6 b7 b8 b9 b10 b11 b12 b13 b14 b15]
    rw [decode_literal26
      (lookupL _ (bndS0 b0))
      (lookupL _ (bndS1 b0 b1))
      (lookupL _ (bndS2 b1))
      (lookupL _ (bndS3 b1 b2))
      (lookupL _ (bndS4 b2 b3 h3))
      (lookupL _ (bndS5 b3))
      (lookupL _ (bndS6 b3 b4))
      (lookupL _ (bndS7 b4))
      (lookupL _ (bndS0 b5))
      (lookupL _ (bndS1 b5 b6))
      (lookupL _ (bndS2 b6))
      (lookupL _ (bndS3 b6 b7))
      (lookupL _ (bndS4 b7 b8 h8))
      (lookupL _ (bndS5 b8))
      (lookupL _ (bndS6 b8 b9))
      (lookupL _ (bndS7 b9))
      (lookupL _ (bndS0 b10))
      (lookupL _ (bndS1 b10 b11))
      (lookupL _ (bndS2 b11))
      (lookupL _ (bndS3 b11 b12))
      (lookupL _ (bndS4 b12 b13 h13))
      (lookupL _ (bndS5 b13))
      (lookupL _ (bndS6 b13 b14))
      (lookupL _ (bndS7 b14))
      (lookupL _ (bndS0 b15))
      (lookupL _ (bndLast b15))
      (padL _ (bndLast b15))]
    simp only [Except.ok.injEq, List.cons.injEq, and_true]
    and_intros
    · exact comp0 b0 b1 h0 h1
    · exact comp1 b0 b1 b2 h0 h1 h2
    · exact comp2 b1 b2 b3 h1 h2 h3
    · exact comp3 b2 b3 b4 h2 h3 h4
    · exact comp4 b3 b4 h3 h4
    · exact comp0 b5 b6 h5 h6
    · exact comp1 b5 b6 b7 h5 h6 h7
    · exact comp2 b6 b7 b8 h6 h7 h8
    · exact comp3 b7 b8 b9 h7 h8 h9
    · exact comp4 b8 b9 h8 h9
    · exact comp0 b10 b11 h10 h11
    · exact comp1 b10 b11 b12 h10 h11 h12
    · exact comp2 b11 b12 b13 h11 h12 h13
    · exact comp3 b12 b13 b14 h12 h13 h14
    · exact comp4 b13 b14 h13 h14
    · exact comp_last b15 h15

/-- Witness for C1 at the fixed test vector. -/
theorem claim_C1_roundtrip_witness :
    decode (encode Case.Lower vecBytes) = .ok vecBytes := by
  apply claim_C1_roundtrip Case.Lower 1 103 245 214 154 12 107 200 228 194 102 58 236 82 247 87 <;>
    decide

/-! Section: Structural analysis of decode: first invalid character -/

/-- Position of the first character whose inverse-table lookup fails
(the character `decode` reports in its `InvalidCharacter` error). -/
def firstInvalid : List Nat → Option Nat
  | [] => none
  | c :: rest =>
    if (lookupChar c).isSome then (firstInvalid rest).map (fun j => j + 1) else some 0

/-- A `decode` chunk loop errors at the first invalid character of its chunk,
reporting the enumeration index relative to the chunk start. -/
theorem decodeVals_err (chunk : List Nat) : ∀ (i j : Nat), firstInvalid chunk = some j →
    decodeVals chunk i = .error (.InvalidCharacter (chunk.getD j 0) (i + j)) := by
  induction chunk with
  | nil =>
    intro i j h
    simp [firstInvalid] at h
  | cons c rest ih =>
    intro i j h
    cases hc : lookupChar c with
    | none =>
      have hj : j = 0 := by
        simp [firstInvalid, hc] at h
        omega
      subst hj
      simp [decodeVals, hc]
    | some v =>
      have hsome : (lookupChar c).isSome := by rw [hc]; rfl
      simp only [firstInvalid, hsome, if_true] at h
      cases hfi : firstInvalid rest with
      | none =>
        rw [hfi] at h
        simp at h
      | some j0 =>
        rw [hfi] at h
        simp only [Option.map_some'] at h
        have hj : j = j0 + 1 := (Option.some.inj h).symm
        subst hj
        have harith : i + 1 + j0 = i + (j0 + 1) := by omega
        rw [decodeVals_cons c v rest i hc, ih (i + 1) j0 hfi]
        simp only [Except.map, List.getD_cons_succ]
        rw [harith]

/-- When every character of the chunk is valid, the chunk loop succeeds and
produces one value per character. -/
theorem decodeVals_ok (chunk : List Nat) : ∀ i, firstInvalid chunk = none →
    ∃ vs, decodeVals chunk i = .ok vs ∧ vs.length = chunk.length := by
  induction chunk with
  | nil =>
    intro i _
    exact ⟨[], rfl, rfl⟩
  | cons c rest ih =>
    intro i h
    cases hc : lookupChar c with
    | none =>
      simp [firstInvalid, hc] at h
    | some v =>
      have hsome : (lookupChar c).isSome := by rw [hc]; rfl
      simp only [firstInvalid, hsome, if_true, Option.map_eq_none'] at h
      obtain ⟨vs, hvs, hlen⟩ := ih (i + 1) h
      refine ⟨v :: vs, ?_, by simp [hlen]⟩
      rw [decodeVals_cons c v rest i hc, hvs]
      rfl

theorem firstInvalid_lt (l : List Nat) : ∀ j, firstInvalid l = some j → j < l.length := by
  induction l with
  | nil =>
    intro j h
    simp [firstInvalid] at h
  | cons c rest ih =>
    intro j h
    by_cases hc : (lookupChar c).isSome
    · simp only [firstInvalid, hc, if_true] at h
      cases hfi : firstInvalid rest with
      | none =>
        rw [hfi] at h
        simp at h
      | some j0 =>
        rw [hfi] at h
        simp only [Option.map_some'] at h
        have hj := Option.some.inj h
        have := ih j0 hfi
        simp only [List.length_cons]
        omega
    · simp only [firstInvalid, hc, if_false] at h
      have hj := Option.some.inj h
      simp only [List.length_cons]
      omega

theorem firstInvalid_append_some (l1 l2 : List Nat) (j : Nat) (h : firstInvalid l1 = some j) :
    firstInvalid (l1 ++ l2) = some j := by
  induction l1 generalizing j with
  | nil =>
    simp [firstInvalid] at h
  | cons c rest ih =>
    by_cases hc : (lookupChar c).isSome
    · simp only [firstInvalid, hc, if_true] at h
      simp only [List.cons_append, firstInvalid, hc, if_true, List.append_eq]
      cases hfi : firstInvalid rest with
      | none =>
        rw [hfi] at h
        simp at h
      | some j0 =>
        rw [hfi] at h
        rw [ih j0 hfi]
        exact h
    · simp only [firstInvalid, hc, if_false] at h
      simp only [List.cons_append, firstInvalid, hc, if_false, List.append_eq]
      exact h

theorem firstInvalid_append_none (l1 l2 : List Nat) (h : firstInvalid l1 = none) :
    firstInvalid (l1 ++ l2) = (firstInvalid l2).map (fun j => j + l1.length) := by
  induction l1 with
  | nil =>
    simp only [List.nil_append, List.length_nil]
    cases firstInvalid l2 <;> simp
  | cons c rest ih =>
    by_cases hc : (lookupChar c).isSome
    · simp only [firstInvalid, hc, if_true, Option.map_eq_none'] at h
      simp only [List.cons_append, firstInvalid, hc, if_true, List.append_eq, ih h,
        List.length_cons]
      cases firstInvalid l2 with
      | none => simp
      | some j0 =>
        simp only [Option.map_some']
        congr 1
    · simp only [firstInvalid, hc, if_false] at h
      simp at h

/-- Unfolding of `chunks8` on eight or more elements. -/
theorem chunks8_cons8 (a b c d e f g h : Nat) (rest : List Nat) :
    chunks8 (a :: b :: c :: d :: e :: f :: g :: h :: rest) =
      [a, b, c, d, e, f, g, h] :: chunks8 rest := rfl

/-- A nonempty list of at most eight elements is a single chunk. -/
theorem chunks8_short : ∀ (data : List Nat), data ≠ [] → data.length ≤ 8 →
    chunks8 data = [data]
  | [], h, _ => absurd rfl h
  | [_], _, _ => rfl
  | [_, _], _, _ => rfl
  | [_, _, _], _, _ => rfl
  | [_, _, _, _], _, _ => rfl
  | [_, _, _, _, _], _, _ => rfl
  | [_, _, _, _, _, _], _, _ => rfl
  | [_, _, _, _, _, _, _], _, _ => rfl
  | [_, _, _, _, _, _, _, _], _, _ => rfl
  | _ :: _ :: _ :: _ :: _ :: _ :: _ :: _ :: _ :: _, _, hl => by
    simp at hl

/-- Each chunk's byte output has exactly five bytes. -/
theorem bytes5_length (vals : List Nat) : (bytes5 vals).length = 5 := rfl

theorem getD_cons8 (a b c d e f g h : Nat) (rest : List Nat) (j : Nat) (hj : j < 8) :
    ((a :: b :: c :: d :: e :: f :: g :: h :: rest) : List Nat).getD j 0 =
      ([a, b, c, d, e, f, g, h] : List Nat).getD j 0 := by
  interval_cases j <;> rfl

theorem getD_cons8_shift (a b c d e f g h : Nat) (rest : List Nat) (j : Nat) :
    ((a :: b :: c :: d :: e :: f :: g :: h :: rest) : List Nat).getD (j + 8) 0 =
      rest.getD j 0 := rfl

/-- The chunk loop errors correctly on any single (short) chunk. -/
theorem decodeChunks_err_short (data : List Nat) (hne : data ≠ []) (hle : data.length ≤ 8)
    (j : Nat) (h : firstInvalid data = some j) :
    decodeChunks (chunks8 data) = .error (.InvalidCharacter (data.getD j 0) (j % 8)) := by
  have hjlt : j < 8 := lt_of_lt_of_le (firstInvalid_lt data j h) hle
  have hdv := decodeVals_err data 0 j h
  rw [Nat.zero_add] at hdv
  rw [chunks8_short data hne hle]
  simp only [decodeChunks, decodeChunk, hdv, Except.map]
  rw [Nat.mod_eq_of_lt hjlt]

/-- The chunk loop of `decode` errors at the first invalid character of the
input, reporting the position within its 8-character chunk. -/
theorem decodeChunks_err : ∀ (data : List Nat) (j : Nat), firstInvalid data = some j →
    decodeChunks (chunks8 data) = .error (.InvalidCharacter (data.getD j 0) (j % 8))
  | [], j, h => by simp [firstInvalid] at h
  | [a], j, h => decodeChunks_err_short [a] (by simp) (by simp) j h
  | [a, b], j, h => decodeChunks_err_short [a, b] (by simp) (by simp) j h
  | [a, b, c], j, h => decodeChunks_err_short [a, b, c] (by simp) (by simp) j h
  | [a, b, c, d], j, h => decodeChunks_err_short [a, b, c, d] (by simp) (by simp) j h
  | [a, b, c, d, e], j, h => decodeChunks_err_short [a, b, c, d, e] (by simp) (by simp) j h
  | [a, b, c, d, e, f], j, h =>
    decodeChunks_err_short [a, b, c, d, e, f] (by simp) (by simp) j h
  | [a, b, c, d, e, f, g], j, h =>
    decodeChunks_err_short [a, b, c, d, e, f, g] (by simp) (by simp) j h
  | a :: b :: c :: d :: e :: f :: g :: h8 :: rest, j, h => by
    rw [show (a :: b :: c :: d :: e :: f :: g :: h8 :: rest : List Nat) =
      [a, b, c, d, e, f, g, h8] ++ rest from rfl] at h
    cases hfi : firstInvalid [a, b, c, d, e, f, g, h8] with
    | some j0 =>
      rw [firstInvalid_append_some _ _ _ hfi] at h
      have hj : j = j0 := (Option.some.inj h).symm
      subst hj
      have hjlt : j < 8 := by
        have := firstInvalid_lt _ _ hfi
        simpa using this
      have hdv := decodeVals_err [a, b, c, d, e, f, g, h8] 0 j hfi
      rw [Nat.zero_add] at hdv
      rw [chunks8_cons8]
      simp only [decodeChunks, decodeChunk, hdv, Except.map]
      rw [getD_cons8 a b c d e f g h8 rest j hjlt, Nat.mod_eq_of_lt hjlt]
    | none =>
      rw [firstInvalid_append_none _ _ hfi] at h
      cases hrest : firstInvalid rest with
      | none =>
        rw [hrest] at h
        simp at h
      | some j0 =>
        rw [hrest] at h
        simp only [Option.map_some', List.length_cons, List.length_nil] at h
        have hj : j = j0 + 8 := by
          have := Option.some.inj h
          omega
        subst hj
        obtain ⟨vs, hvs, hlen⟩ := decodeVals_ok [a, b, c, d, e, f, g, h8] 0 hfi
        have hrec := decodeChunks_err rest j0 hrest
        rw [chunks8_cons8]
        simp only [decodeChunks, decodeChunk, hvs, Except.map, hrec]
        rw [getD_cons8_shift, Nat.add_mod_right]

/-- The chunk loop succeeds on any single (short) all-valid chunk. -/
theorem decodeChunks_ok_short (data : List Nat) (hne : data ≠ []) (hle : data.length ≤ 8)
    (h : firstInvalid data = none) :
    ∃ out, decodeChunks (chunks8 data) = .ok out ∧
      out.length = 5 * (chunks8 data).length := by
  obtain ⟨vs, hvs, hlen⟩ := decodeVals_ok data 0 h
  rw [chunks8_short data hne hle]
  refine ⟨bytes5 (vs ++ List.replicate (8 - vs.length) 0) ++ [], ?_, ?_⟩
  · simp only [decodeChunks, decodeChunk, hvs, Except.map]
  · simp [bytes5_length]

/-- With no invalid character, the chunk loop of `decode` succeeds and
produces five bytes per chunk. -/
theorem decodeChunks_ok : ∀ (data : List Nat), firstInvalid data = none →
    ∃ out, decodeChunks (chunks8 data) = .ok out ∧ out.length = 5 * (chunks8 data).length
  | [], _ => ⟨[], rfl, rfl⟩
  | [a], h => decodeChunks_ok_short [a] (by simp) (by simp) h
  | [a, b], h => decodeChunks_ok_short [a, b] (by simp) (by simp) h
  | [a, b, c], h => decodeChunks_ok_short [a, b, c] (by simp) (by simp) h
  | [a, b, c, d], h => decodeChunks_ok_short [a, b, c, d] (by simp) (by simp) h
  | [a, b, c, d, e], h => decodeChunks_ok_short [a, b, c, d, e] (by simp) (by simp) h
  | [a, b, c, d, e, f], h => decodeChunks_ok_short [a, b, c, d, e, f] (by simp) (by simp) h
  | [a, b, c, d, e, f, g], h =>
    decodeChunks_ok_short [a, b, c, d, e, f, g] (by simp) (by simp) h
  | a :: b :: c :: d :: e :: f :: g :: h8 :: rest, h => by
    rw [show (a :: b :: c :: d :: e :: f :: g :: h8 :: rest : List Nat) =
      [a, b, c, d, e, f, g, h8] ++ rest from rfl] at h
    have hfi : firstInvalid [a, b, c, d, e, f, g, h8] = none := by
      cases hfi : firstInvalid [a, b, c, d, e, f, g, h8] with
      | none => rfl
      | some j0 =>
        rw [firstInvalid_append_some _ _ _ hfi] at h
        exact absurd h (by simp)
    have hrest : firstInvalid rest = none := by
      rw [firstInvalid_append_none _ _ hfi] at h
      cases hrest : firstInvalid rest with
      | none => rfl
      | some j0 =>
        rw [hrest] at h
        simp at h
    obtain ⟨vs, hvs, hlen⟩ := decodeVals_ok [a, b, c, d, e, f, g, h8] 0 hfi
    obtain ⟨out, hout, houtlen⟩ := decodeChunks_ok rest hrest
    refine ⟨bytes5 (vs ++ List.replicate (8 - vs.length) 0) ++ out, ?_, ?_⟩
    · rw [chunks8_cons8]
      simp only [decodeChunks, decodeChunk, hvs, Except.map, hout]
    · rw [chunks8_cons8]
      simp only [List.length_append, bytes5_length, houtlen, List.length_cons]
      ring

/-- The pad character has no inverse-table entry. -/
theorem lookup61 : lookupChar 61 = none := rfl

theorem firstInvalid_none_notMem61 (data : List Nat) (h : firstInvalid data = none) :
    61 ∉ data := by
  induction data with
  | nil => simp
  | cons c rest ih =>
    by_cases hc : (lookupChar c).isSome
    · simp only [firstInvalid, hc, if_true, Option.map_eq_none'] at h
      intro hmem
      rcases List.mem_cons.mp hmem with heq | hmem2
      · rw [← heq] at hc
        rw [lookup61] at hc
        simp at hc
      · exact ih h hmem2
    · simp only [firstInvalid, hc, if_false] at h
      simp at h

/-- Inputs with no pad character have a zero pad count. -/
theorem padCount_zero (data : List Nat) (h : 61 ∉ data) : padCount data = 0 := by
  cases hrev : data.reverse with
  | nil => simp [padCount, hrev]
  | cons c rest =>
    have hcmem : c ∈ data := by
      rw [← List.mem_reverse, hrev]
      exact List.mem_cons_self c rest
    have hne : (c == 61) = false := by
      rw [beq_eq_false_iff_ne]
      intro heq
      rw [heq] at hcmem
      exact h hcmem
    simp only [padCount, hrev, List.takeWhile_cons, hne, Bool.false_eq_true, if_false,
      List.length_nil]
    rfl

/-- Characterisation of `decode` on inputs with an invalid character. -/
theorem decode_err (data : List Nat) (j : Nat) (h : firstInvalid data = some j) :
    decode data = .error (.InvalidCharacter (data.getD j 0) (j % 8)) := by
  simp only [decode, decodeChunks_err data j h]

theorem chunks8_length : ∀ (l : List Nat), (chunks8 l).length = (l.length + 7) / 8
  | [] => rfl
  | [_] => by simp [chunks8]
  | [_, _] => by simp [chunks8]
  | [_, _, _] => by simp [chunks8]
  | [_, _, _, _] => by simp [chunks8]
  | [_, _, _, _, _] => by simp [chunks8]
  | [_, _, _, _, _, _] => by simp [chunks8]
  | [_, _, _, _, _, _, _] => by simp [chunks8]
  | a :: b :: c :: d :: e :: f :: g :: h :: rest => by
    rw [chunks8_cons8]
    simp only [List.length_cons, chunks8_length rest]
    omega

/-- Characterisation of `decode` on all-valid inputs. -/
theorem decode_ok_of_valid (data : List Nat) (h : firstInvalid data = none) :
    ∃ out, decode data = .ok out ∧
      out.length = min (data.length * 5 / 8) (5 * (chunks8 data).length) := by
  obtain ⟨out, hout, hlen⟩ := decodeChunks_ok data h
  have hpc := padCount_zero data (firstInvalid_none_notMem61 data h)
  refine ⟨out.take (data.length * 5 / 8), ?_, ?_⟩
  · simp only [decode, hout, hpc, Nat.sub_zero]
  · simp [List.length_take, hlen]

/-- On a valid 26-character input, `decode` produces exactly 16 bytes. -/
theorem decode_26_ok_len (input : List Nat) (hlen : input.length = 26)
    (hfi : firstInvalid input = none) :
    ∃ out, decode input = .ok out ∧ out.length = 16 := by
  obtain ⟨out, hout, holen⟩ := decode_ok_of_valid input hfi
  refine ⟨out, hout, ?_⟩
  rw [holen, chunks8_length, hlen]
  omega

/-! Section: Claim C9: parse_str never panics -/

/-- C9: `parse_str` always returns a value (the modelled panic `none` is
unreachable): whenever `decode` succeeds on a 26-character input it returns
exactly 16 bytes, so the internal `from_slice(..).unwrap()` cannot fail. -/
theorem claim_C9_no_panic (input : List Nat) :
    (parse_str input).isSome ∧
    (input.length = 26 → ∀ out, decode input = .ok out → out.length = 16) := by
  constructor
  · by_cases hlen : input.length = 26
    · cases hfi : firstInvalid input with
      | some j =>
        simp [parse_str, hlen, decode_err input j hfi]
      | none =>
        obtain ⟨out, hout, h16⟩ := decode_26_ok_len input hlen hfi
        simp [parse_str, hlen, hout, from_slice, h16]
    · simp [parse_str, hlen]
  · intro hlen out hout
    cases hfi : firstInvalid input with
    | some j =>
      rw [decode_err input j hfi] at hout
      exact absurd hout (by simp)
    | none =>
      obtain ⟨out2, hout2, h16⟩ := decode_26_ok_len input hlen hfi
      rw [hout2] at hout
      have : out2 = out := Except.ok.inj hout
      rw [← this]
      exact h16

/-- Witness for C9 at the fixed test vector string. -/
theorem claim_C9_no_panic_witness : vecBytes.length = 16 :=
  (claim_C9_no_panic (strBytes ("05kzbnmt1hnwhs62crxermqqaw"))).2 (by decide)
    vecBytes (by decide)

/-! Section: Claim C4: parse_str error reporting -/

/-- C4: `parse_str` fails with `InvalidLength` carrying the input length
exactly when the length is not 26; on a 26-character input with an invalid
character (non-ASCII or sentinel), it fails with `InvalidCharacter` carrying
the first such character in chunk processing order and that character's
position within its 8-character chunk (the absolute position modulo 8). -/
theorem claim_C4_parse_errors (input : List Nat) :
    (parse_str input = some (.error (.InvalidLength input.length)) ↔ input.length ≠ 26) ∧
    (∀ n, parse_str input = some (.error (.InvalidLength n)) → n = input.length) ∧
    (input.length = 26 → ∀ i, firstInvalid input = some i →
      parse_str input = some (.error (.InvalidCharacter (input.getD i 0) (i % 8)))) := by
  refine ⟨⟨fun h => ?_, fun h => by simp [parse_str, h]⟩, fun n h => ?_, fun hlen i hfi => ?_⟩
  · intro hlen
    cases hfi : firstInvalid input with
    | some j =>
      rw [show parse_str input = some (.error (.InvalidCharacter (input.getD j 0) (j % 8)))
        from by simp [parse_str, hlen, decode_err input j hfi]] at h
      simp at h
    | none =>
      obtain ⟨out, hout, h16⟩ := decode_26_ok_len input hlen hfi
      rw [show parse_str input = some (.ok (from_bytes out))
        from by simp [parse_str, hlen, hout, from_slice, h16]] at h
      simp at h
  · by_cases hlen : input.length = 26
    · exfalso
      cases hfi : firstInvalid input with
      | some j =>
        rw [show parse_str input = some (.error (.InvalidCharacter (input.getD j 0) (j % 8)))
          from by simp [parse_str, hlen, decode_err input j hfi]] at h
        simp at h
      | none =>
        obtain ⟨out, hout, h16⟩ := decode_26_ok_len input hlen hfi
        rw [show parse_str input = some (.ok (from_bytes out))
          from by simp [parse_str, hlen, hout, from_slice, h16]] at h
        simp at h
    · rw [show parse_str input = some (.error (.InvalidLength input.length))
        from by simp [parse_str, hlen]] at h
      simp at h
      omega
  · simp [parse_str, hlen, decode_err input i hfi]

/-- Witness for C4 on a 26-character string whose only invalid character is
the letter u at absolute position 25 (position 1 within its chunk). -/
theorem claim_C4_parse_errors_witness :
    parse_str (strBytes ("0123456789012345678901234u")) =
      some (.error (.InvalidCharacter 117 1)) :=
  (claim_C4_parse_errors (strBytes ("0123456789012345678901234u"))).2.2
    (by decide) 25 (by decide)

/-! Section: Claim C10: the pad character never decodes -/

/-- C10: a 26-character string containing the pad character always fails
with `InvalidCharacter` (with found 61 when the pad is the first invalid
character in chunk processing order), and every accepted string contains no
pad character. -/
theorem claim_C10_pad_rejected (s : List Nat) :
    (s.length = 26 → 61 ∈ s → ∃ c i, parse_str s = some (.error (.InvalidCharacter c i))) ∧
    (s.length = 26 → ∀ i, firstInvalid s = some i → s.getD i 0 = 61 →
      parse_str s = some (.error (.InvalidCharacter 61 (i % 8)))) ∧
    (∀ u, parse_str s = some (.ok u) → 61 ∉ s) := by
  refine ⟨fun hlen hmem => ?_, fun hlen i hfi hc => ?_, fun u h => ?_⟩
  · cases hfi : firstInvalid s with
    | none => exact absurd hmem (firstInvalid_none_notMem61 s hfi)
    | some j =>
      exact ⟨s.getD j 0, j % 8, by simp [parse_str, hlen, decode_err s j hfi]⟩
  · rw [show parse_str s = some (.error (.InvalidCharacter (s.getD i 0) (i % 8)))
      from by simp [parse_str, hlen, decode_err s i hfi], hc]
  · by_cases hlen : s.length = 26
    · cases hfi : firstInvalid s with
      | none => exact firstInvalid_none_notMem61 s hfi
      | some j =>
        rw [show parse_str s = some (.error (.InvalidCharacter (s.getD j 0) (j % 8)))
          from by simp [parse_str, hlen, decode_err s j hfi]] at h
        simp at h
    · rw [show parse_str s = some (.error (.InvalidLength s.length))
        from by simp [parse_str, hlen]] at h
      simp at h

/-- Witness for C10 on 25 zero digits followed by a pad character. -/
theorem claim_C10_pad_rejected_witness :
    parse_str (strBytes ("0000000000000000000000000=")) =
      some (.error (.InvalidCharacter 61 1)) :=
  (claim_C10_pad_rejected (strBytes ("0000000000000000000000000="))).2.1
    (by decide) 25 (by decide) (by decide)

/-! Section: Claim C8: case relationship between the alphabets -/

/-- Lowercase alphabet symbols are the lowercased uppercase symbols. -/
theorem alphaLower : ∀ s, s < 32 →
    CROCKFORD_LOWER.getD s 0 = toAsciiLower (CROCKFORD.getD s 0) := by decide

/-- Uppercasing a character does not change its inverse-table lookup. -/
theorem upperIdem (c : Nat) : lookupChar (toAsciiUpper c) = lookupChar c := by
  by_cases h : c < 128
  · revert h
    revert c
    decide
  · have : toAsciiUpper c = c := by
      unfold toAsciiUpper
      rw [if_neg (by omega)]
    rw [this]

/-- Uppercasing preserves being the pad character. -/
theorem upper61 (c : Nat) : (toAsciiUpper c == 61) = (c == 61) := by
  unfold toAsciiUpper
  split_ifs with h
  · have h1 : (c - 32 == 61) = false := by
      rw [beq_eq_false_iff_ne]
      omega
    have h2 : (c == 61) = false := by
      rw [beq_eq_false_iff_ne]
      omega
    rw [h1, h2]
  · rfl

theorem except_map_ok {e : Except ParseError (List Nat)} {f : List Nat → List Nat}
    {y : List Nat} : e.map f = .ok y ↔ ∃ x, e = .ok x ∧ y = f x := by
  cases e <;> simp [Except.map]
  exact eq_comm

theorem decodeVals_upper (l : List Nat) : ∀ i vs,
    decodeVals (l.map toAsciiUpper) i = .ok vs ↔ decodeVals l i = .ok vs := by
  induction l with
  | nil =>
    intro i vs
    simp [decodeVals]
  | cons c rest ih =>
    intro i vs
    cases hc : lookupChar c with
    | none =>
      have hcu : lookupChar (toAsciiUpper c) = none := by rw [upperIdem c, hc]
      simp [List.map_cons, decodeVals, hc, hcu]
    | some v =>
      have hcu : lookupChar (toAsciiUpper c) = some v := by rw [upperIdem c, hc]
      rw [List.map_cons, decodeVals_cons (toAsciiUpper c) v (rest.map toAsciiUpper) i hcu,
        decodeVals_cons c v rest i hc]
      simp only [except_map_ok]
      constructor
      · rintro ⟨x, hx, hy⟩
        exact ⟨x, (ih _ _).mp hx, hy⟩
      · rintro ⟨x, hx, hy⟩
        exact ⟨x, (ih _ _).mpr hx, hy⟩

theorem decodeChunk_upper (chunk : List Nat) (bs : List Nat) :
    decodeChunk (chunk.map toAsciiUpper) = .ok bs ↔ decodeChunk chunk = .ok bs := by
  simp only [decodeChunk, except_map_ok]
  constructor
  · rintro ⟨x, hx, hy⟩
    exact ⟨x, (decodeVals_upper chunk 0 x).mp hx, hy⟩
  · rintro ⟨x, hx, hy⟩
    exact ⟨x, (decodeVals_upper chunk 0 x).mpr hx, hy⟩

theorem chunks8_map (u : Nat → Nat) : ∀ (l : List Nat),
    chunks8 (l.map u) = (chunks8 l).map (List.map u)
  | [] => rfl
  | [_] => rfl
  | [_, _] => rfl
  | [_, _, _] => rfl
  | [_, _, _, _] => rfl
  | [_, _, _, _, _] => rfl
  | [_, _, _, _, _, _] => rfl
  | [_, _, _, _, _, _, _] => rfl
  | a :: b :: c :: d :: e :: f :: g :: h :: rest => by
    simp only [List.map_cons, List.map_nil, chunks8_cons8, chunks8_map u rest]

theorem decodeChunks_upper (cs : List (List Nat)) : ∀ out,
    decodeChunks (cs.map (List.map toAsciiUpper)) = .ok out ↔ decodeChunks cs = .ok out := by
  induction cs with
  | nil =>
    intro out
    simp [decodeChunks]
  | cons c rest ih =>
    intro out
    cases hdc : decodeChunk c with
    | error e =>
      cases hdcu : decodeChunk (c.map toAsciiUpper) with
      | error e2 =>
        simp [decodeChunks, hdc, hdcu]
      | ok bs =>
        have := (decodeChunk_upper c bs).mp hdcu
        rw [hdc] at this
        exact absurd this (by simp)
    | ok bs =>
      have hdcu : decodeChunk (c.map toAsciiUpper) = .ok bs := (decodeChunk_upper c bs).mpr hdc
      rw [List.map_cons]
      simp only [decodeChunks, hdc, hdcu, except_map_ok]
      constructor
      · rintro ⟨x, hx, hy⟩
        exact ⟨x, (ih x).mp hx, hy⟩
      · rintro ⟨x, hx, hy⟩
        exact ⟨x, (ih x).mpr hx, hy⟩

theorem takeWhile61_map : ∀ (l : List Nat),
    ((l.map toAsciiUpper).takeWhile (fun c => c == 61)).length =
      (l.takeWhile (fun c => c == 61)).length := by
  intro l
  induction l with
  | nil => rfl
  | cons c rest ih =>
    rw [List.map_cons, List.takeWhile_cons, List.takeWhile_cons, upper61 c]
    cases h : (c == 61) with
    | false => simp
    | true =>
      simp only [if_true]
      simp [ih]

theorem padCount_map (l : List Nat) :
    padCount (l.map toAsciiUpper) = padCount l := by
  unfold padCount
  rw [← List.map_reverse, takeWhile61_map]

/-- Case-insensitive decoding, success direction: a string decodes to given
bytes exactly when its uppercased form does. -/
theorem decode_upper (s : List Nat) (bs : List Nat) :
    decode s = .ok bs ↔ decode (s.map toAsciiUpper) = .ok bs := by
  simp only [decode, chunks8_map toAsciiUpper s, padCount_map, List.length_map]
  cases hdc : decodeChunks (chunks8 s) with
  | error e =>
    cases hdcu : decodeChunks ((chunks8 s).map (List.map toAsciiUpper)) with
    | error e2 => simp
    | ok out =>
      have := (decodeChunks_upper (chunks8 s) out).mp hdcu
      rw [hdc] at this
      exact absurd this (by simp)
  | ok out =>
    have hdcu : decodeChunks ((chunks8 s).map (List.map toAsciiUpper)) = .ok out :=
      (decodeChunks_upper (chunks8 s) out).mpr hdc
    rw [hdcu]

/-- C8 is false as stated: decoding is not literally invariant under
uppercasing, because the reported invalid character keeps its original case. -/
theorem claim_C8_counterexample :
    decode (strBytes ("uuuuuuuuuuuuuuuuuuuuuuuuuu")) ≠
      decode ((strBytes ("uuuuuuuuuuuuuuuuuuuuuuuuuu")).map toAsciiUpper) := by decide

/-- C8 (amended): the uppercase and lowercase encodings of a 16-byte buffer
differ only in letter case (the lowercase encoding is the character-wise
ASCII-lowercasing of the uppercase one, so lengths and digit positions
agree), and decoding a string succeeds with given bytes exactly when
decoding its uppercased form does (only a reported error character may
differ in case). -/
theorem claim_C8_amended :
    (∀ b0 b1 b2 b3 b4 b5 b6 b7 b8 b9 b10 b11 b12 b13 b14 b15 : Nat, b0 < 256 → b1 < 256 → b2 < 256 → b3 < 256 → b4 < 256 →
      b5 < 256 → b6 < 256 → b7 < 256 → b8 < 256 → b9 < 256 → b10 < 256 → b11 < 256 →
      b12 < 256 → b13 < 256 → b14 < 256 → b15 < 256 →
      encode Case.Lower [b0, b1, b2, b3, b4, b5, b6, b7, b8, b9, b10, b11, b12, b13, b14, b15] =
        (encode Case.Upper [b0, b1, b2, b3, b4, b5, b6, b7, b8, b9, b10, b11, b12, b13, b14, b15]).map toAsciiLower) ∧
    (∀ s bs : List Nat, decode s = .ok bs ↔ decode (s.map toAsciiUpper) = .ok bs) := by
  constructor
  · intro b0 b1 b2 b3 b4 b5 b6 b7 b8 b9 b10 b11 b12 b13 b14 b15 h0 h1 h2 h3 h4 h5 h6 h7 h8 h9 h10 h11 h12 h13 h14 h15
    rw [encode16_lower b0 b1 b2 b3 b4 b5 b6 b7 b8 b9 b10 b11 b12 b13 b14 b15, encode16_upper b0 b1 b2 b3 b4 b5 b6 b7 b8 b9 b10 b11 b12 b13 b14 b15]
    simp only [List.map_cons, List.map_nil, List.cons.injEq, and_true]
    and_intros
    · exact alphaLower _ (bndS0 b0)
    · exact alphaLower _ (bndS1 b0 b1)
    · exact alphaLower _ (bndS2 b1)
    · exact alphaLower _ (bndS3 b1 b2)
    · exact alphaLower _ (bndS4 b2 b3 h3)
    · exact alphaLower _ (bndS5 b3)
    · exact alphaLower _ (bndS6 b3 b4)
    · exact alphaLower _ (bndS7 b4)
    · exact alphaLower _ (bndS0 b5)
    · exact alphaLower _ (bndS1 b5 b6)
    · exact alphaLower _ (bndS2 b6)
    · exact alphaLower _ (bndS3 b6 b7)
    · exact alphaLower _ (bndS4 b7 b8 h8)
    · exact alphaLower _ (bndS5 b8)
    · exact alphaLower _ (bndS6 b8 b9)
    · exact alphaLower _ (bndS7 b9)
    · exact alphaLower _ (bndS0 b10)
    · exact alphaLower _ (bndS1 b10 b11)
    · exact alphaLower _ (bndS2 b11)
    · exact alphaLower _ (bndS3 b11 b12)
    · exact alphaLower _ (bndS4 b12 b13 h13)
    · exact alphaLower _ (bndS5 b13)
    · exact alphaLower _ (bndS6 b13 b14)
    · exact alphaLower _ (bndS7 b14)
    · exact alphaLower _ (bndS0 b15)
    · exact alphaLower _ (bndLast b15)
  · exact decode_upper

/-- Witness for the amended C8 at the fixed test vector. -/
theorem claim_C8_amended_witness :
    encode Case.Lower vecBytes = (encode Case.Upper vecBytes).map toAsciiLower :=
  by apply claim_C8_amended.1 1 103 245 214 154 12 107 200 228 194 102 58 236 82 247 87 <;>
    decide

end Yulid
